import Mathlib

/-!
Verification development for the transcription-pipeline repository.

The definitions below are a shallow embedding of the Python sources:
`src/merge.py`, `src/worker/providers.py`, `src/worker/pricing.py`,
`src/run_worker.py` and `src/worker/processor.py`.  Float times and
monetary amounts are embedded as rationals (`ℚ`); Python dicts that rely
on insertion order are embedded as association lists; fallible calls
return `Except`/`Option`; the mutable SQLite session of the worker is
embedded as explicit state passing over an `EngineState` record.
External I/O (the ASR endpoint, the diarization model, the LLM
providers) is supplied by an oracle record `WorldConfig`, so that the
engine's own control flow is the object of study.

Arithmetic on `ℚ` is performed through the executable wrappers `radd`,
`rsub`, `rmul`, `rdiv`, `rmax`, `rmin` (the library operations are
deliberately irreducible and would block kernel evaluation of concrete
runs); the bridging lemmas `radd_eq` … `rdiv_eq` identify them with the
field operations.
-/

namespace Pipeline

/-! ## Executable rational arithmetic -/

/-- Executable addition on `ℚ`. -/
def radd (a b : ℚ) : ℚ := Rat.divInt (a.num * b.den + b.num * a.den) (a.den * b.den)

/-- Executable subtraction on `ℚ`. -/
def rsub (a b : ℚ) : ℚ := Rat.divInt (a.num * b.den - b.num * a.den) (a.den * b.den)

/-- Executable multiplication on `ℚ`. -/
def rmul (a b : ℚ) : ℚ := Rat.divInt (a.num * b.num) (a.den * b.den)

/-- Executable division on `ℚ` (division by zero yields zero, as for the
field operation). -/
def rdiv (a b : ℚ) : ℚ := Rat.divInt (a.num * b.den) (a.den * b.num)

/-- Executable maximum on `ℚ`. -/
def rmax (a b : ℚ) : ℚ := if a ≤ b then b else a

/-- Executable minimum on `ℚ`. -/
def rmin (a b : ℚ) : ℚ := if a ≤ b then a else b

theorem num_mul_den (a : ℚ) : (a.num : ℚ) = a * a.den := by
  have ha : ((a.den : ℚ)) ≠ 0 := by exact_mod_cast a.den_nz
  exact (div_eq_iff ha).mp (Rat.num_div_den a)

theorem den_cast_nz (a : ℚ) : ((a.den : ℚ)) ≠ 0 := by exact_mod_cast a.den_nz

theorem radd_eq (a b : ℚ) : radd a b = a + b := by
  rw [radd, Rat.divInt_eq_div]
  push_cast
  rw [div_eq_iff (mul_ne_zero (den_cast_nz a) (den_cast_nz b)), num_mul_den a, num_mul_den b]
  ring

theorem rsub_eq (a b : ℚ) : rsub a b = a - b := by
  rw [rsub, Rat.divInt_eq_div]
  push_cast
  rw [div_eq_iff (mul_ne_zero (den_cast_nz a) (den_cast_nz b)), num_mul_den a, num_mul_den b]
  ring

theorem rmul_eq (a b : ℚ) : rmul a b = a * b := by
  rw [rmul, Rat.divInt_eq_div]
  push_cast
  rw [div_eq_iff (mul_ne_zero (den_cast_nz a) (den_cast_nz b)), num_mul_den a, num_mul_den b]
  ring

theorem rdiv_eq (a b : ℚ) : rdiv a b = a / b := by
  rcases eq_or_ne b 0 with hb | hb
  · subst hb
    simp [rdiv]
  · have hbn : (b.num : ℚ) ≠ 0 := by
      exact_mod_cast Rat.num_ne_zero.mpr hb
    rw [rdiv, Rat.divInt_eq_div]
    push_cast
    rw [div_eq_div_iff (mul_ne_zero (den_cast_nz a) hbn) hb, num_mul_den a, num_mul_den b]
    ring

theorem rmax_eq_max (a b : ℚ) : rmax a b = max a b := by
  rw [rmax, max_def]

theorem rmin_eq_min (a b : ℚ) : rmin a b = min a b := by
  rw [rmin, min_def]

/-- Executable sum of a list of rationals. -/
def qsum (l : List ℚ) : ℚ := l.foldr radd 0

theorem qsum_eq_sum (l : List ℚ) : qsum l = l.sum := by
  induction l with
  | nil => rfl
  | cons x xs ih => simp [qsum, List.foldr, radd_eq, List.sum_cons, ← ih]

theorem qsum_cons (x : ℚ) (xs : List ℚ) : qsum (x :: xs) = x + qsum xs := by
  simp [qsum, List.foldr, radd_eq]

/-! ## Embedding of `src/merge.py` -/

/-- Whisper/ASR segment: the keys `start`, `end`, `text` of the Python
dict (`end` is a Lean keyword, so the field is named `stop`). -/
structure WSeg where
  start : ℚ
  stop : ℚ
  text : String
deriving DecidableEq, Repr

/-- Diarization segment: the keys `speaker`, `start`, `end` of the Python dict. -/
structure DSeg where
  speaker : String
  start : ℚ
  stop : ℚ
deriving DecidableEq, Repr

/-- Merged segment: the keys `start`, `end`, `text`, `speaker` of the Python dict. -/
structure MSeg where
  start : ℚ
  stop : ℚ
  text : String
  speaker : String
deriving DecidableEq, Repr

/-- Embeds `MIN_OVERLAP_THRESHOLD = 0.5` from `merge.py`. -/
def MIN_OVERLAP_THRESHOLD : ℚ := mkRat 1 2

/-- Embeds `calculate_overlap` from `merge.py`: duration of the
intersection of two intervals, clamped at zero. -/
def calculate_overlap (start1 end1 start2 end2 : ℚ) : ℚ :=
  rmax 0 (rsub (rmin end1 end2) (rmax start1 start2))

/-- Python dict update `speaker_overlaps[speaker] = speaker_overlaps.get(speaker, 0.0) + overlap`
on an insertion-ordered association list: an existing key keeps its
position, a new key is appended. -/
def addOverlap (acc : List (String × ℚ)) (sp : String) (v : ℚ) : List (String × ℚ) :=
  match acc with
  | [] => [(sp, v)]
  | (k, w) :: rest =>
    if k = sp then (k, radd w v) :: rest else (k, w) :: addOverlap rest sp v

/-- Builds the `speaker_overlaps` dict of `_find_best_speaker_for_segment`:
for each diarization segment with positive overlap against the whisper
segment, add the overlap to that speaker's running total. -/
def speakerOverlaps (wStart wEnd : ℚ) (diarization : List DSeg) : List (String × ℚ) :=
  diarization.foldl
    (fun acc d =>
      let overlap := calculate_overlap wStart wEnd d.start d.stop
      if 0 < overlap then addOverlap acc d.speaker overlap else acc)
    []

/-- Python `max(speaker_overlaps, key=speaker_overlaps.get)` over a
nonempty insertion-ordered dict: among equal values the earliest entry
wins, matching CPython's `max`, which replaces the running best only on
a strictly greater key. -/
def maxEntry (first : String × ℚ) (rest : List (String × ℚ)) : String × ℚ :=
  rest.foldl (fun best e => if best.2 < e.2 then e else best) first

/-- Embeds `_find_best_speaker_for_segment` from `merge.py`. -/
def find_best_speaker_for_segment (w : WSeg) (diarization : List DSeg) : Option String :=
  let wDuration := rsub w.stop w.start
  if wDuration ≤ 0 then none
  else
    match speakerOverlaps w.start w.stop diarization with
    | [] => none
    | e :: rest =>
      let best := maxEntry e rest
      if MIN_OVERLAP_THRESHOLD ≤ rdiv best.2 wDuration then some best.1 else none

/-- ASCII whitespace as recognized by `String.trim`. -/
def isWS (c : Char) : Bool := c == ' ' || c == '\t' || c == '\r' || c == '\n'

/-- Python `str.strip()`, written over the character list so that it is
kernel-executable (the library `String.trim` is byte-position based and
does not reduce). -/
def strTrim (s : String) : String :=
  ⟨((s.data.dropWhile isWS).reverse.dropWhile isWS).reverse⟩

/-- Python `str.lower()`, written over the character list. -/
def strLower (s : String) : String :=
  ⟨s.data.map Char.toLower⟩

/-- Python `f"{a} {b}".strip()` / `(a + b).strip()` from
`_merge_consecutive_segments`: texts are space-joined when both are
nonempty, concatenated otherwise, and trimmed. -/
def joinTexts (a b : String) : String :=
  if a ≠ "" ∧ b ≠ "" then strTrim (a ++ " " ++ b) else strTrim (a ++ b)

/-- Loop body of `_merge_consecutive_segments`: `current` is the
accumulator segment of the Python loop. -/
def mergeConsecutiveAux (current : MSeg) : List MSeg → List MSeg
  | [] => [current]
  | seg :: rest =>
    if seg.speaker = current.speaker then
      mergeConsecutiveAux
        { current with stop := seg.stop, text := joinTexts current.text seg.text } rest
    else
      current :: mergeConsecutiveAux seg rest

/-- Embeds `_merge_consecutive_segments` from `merge.py`. -/
def merge_consecutive_segments : List MSeg → List MSeg
  | [] => []
  | seg :: rest => mergeConsecutiveAux seg rest

/-- Python `sorted(segments, key=lambda x: x["start"])` — a stable sort
on the `start` field. -/
def sortByStartW (l : List WSeg) : List WSeg :=
  l.insertionSort (fun a b => a.start ≤ b.start)

/-- Python `sorted(segments, key=lambda x: x["start"])` for diarization
segments. -/
def sortByStartD (l : List DSeg) : List DSeg :=
  l.insertionSort (fun a b => a.start ≤ b.start)

/-- Speaker actually assigned to a whisper segment in the main loop of
`merge_transcript_with_speakers`: the best speaker, or `"UNKNOWN"`. -/
def assignSpeaker (w : WSeg) (diarization : List DSeg) : String :=
  (find_best_speaker_for_segment w diarization).getD "UNKNOWN"

/-- Embeds `merge_transcript_with_speakers` from `merge.py` (the
`if not whisper_segments` test is the constructor split). -/
def merge_transcript_with_speakers :
    List WSeg → List DSeg → List MSeg
  | [], _ => []
  | w :: rest, diarization_segments =>
    let whisper_segments := w :: rest
    if diarization_segments = [] then
      whisper_segments.map (fun s => ⟨s.start, s.stop, s.text, "SPEAKER_00"⟩)
    else
      let sortedW := sortByStartW whisper_segments
      let sortedD := sortByStartD diarization_segments
      let assigned := sortedW.map
        (fun w => MSeg.mk w.start w.stop w.text (assignSpeaker w sortedD))
      merge_consecutive_segments assigned

theorem merge_transcript_sample :
    merge_transcript_with_speakers
      [⟨0, 5, "Hello everyone"⟩, ⟨6, 10, "Nice to meet you"⟩]
      [⟨"SPEAKER_00", 0, mkRat 11 2⟩, ⟨"SPEAKER_01", 6, 10⟩] =
      [⟨0, 5, "Hello everyone", "SPEAKER_00"⟩, ⟨6, 10, "Nice to meet you", "SPEAKER_01"⟩] := by
  decide

theorem calculate_overlap_sample_pos : calculate_overlap 0 10 5 15 = 5 := by decide

theorem calculate_overlap_sample_zero : calculate_overlap 0 5 5 10 = 0 := by decide

/-! ## Embedding of `src/worker/providers.py` -/

/-- Embeds the `ProviderConfig` dataclass. -/
structure ProviderConfig where
  name : String
  base_url : String
  api_key_env : String
deriving DecidableEq, Repr

/-- Environment credentials: `env v = true` models "the environment
variable `v` is set to a non-empty string" (the Python
`bool(os.getenv(...))` check behind `is_configured`). -/
def isConfigured (env : String → Bool) (p : ProviderConfig) : Bool :=
  env p.api_key_env

/-- Embeds the `PROVIDERS` registry dict, in insertion order. -/
def PROVIDERS : List (String × ProviderConfig) :=
  [("deepseek", ⟨"deepseek", "https://api.deepseek.com/v1", "DEEPSEEK_API_KEY"⟩),
   ("openrouter", ⟨"openrouter", "https://openrouter.ai/api/v1", "OPENROUTER_API_KEY"⟩),
   ("openai", ⟨"openai", "https://api.openai.com/v1", "OPENAI_API_KEY"⟩),
   ("zai", ⟨"zai", "https://api.z.ai/v1", "ZAI_API_KEY"⟩)]

/-- Embeds the `MODEL_PROVIDER_HINTS` dict, in insertion order. -/
def MODEL_PROVIDER_HINTS : List (String × String) :=
  [("deepseek", "deepseek"),
   ("gpt-", "openai"),
   ("o1", "openai"),
   ("o3", "openai"),
   ("claude", "openrouter"),
   ("anthropic/", "openrouter"),
   ("google/", "openrouter"),
   ("meta-llama/", "openrouter"),
   ("mistralai/", "openrouter"),
   ("qwen", "openrouter"),
   ("gemini", "openrouter"),
   ("llama", "openrouter")]

/-- Python `needle in haystack` on lists: some tail of `hay` starts with
`needle`. -/
def listInfix (n : List Char) : List Char → Bool
  | [] => n.isEmpty
  | c :: t => n.isPrefixOf (c :: t) || listInfix n t

/-- Python `needle in haystack` on strings (substring containment). -/
def substrOf (needle hay : String) : Bool :=
  listInfix needle.data hay.data

/-- Loop `for hint, provider_name in MODEL_PROVIDER_HINTS.items()` of
`resolve_provider`: the first hint contained in the lowered model name
whose provider has a configured credential wins; a matching hint with an
unconfigured credential only logs and continues. -/
def scanHints (env : String → Bool) (modelLower : String) :
    List (String × String) → Option ProviderConfig
  | [] => none
  | (hint, providerName) :: rest =>
    if substrOf hint modelLower then
      match PROVIDERS.lookup providerName with
      | some p => if isConfigured env p then some p else scanHints env modelLower rest
      | none => scanHints env modelLower rest
    else scanHints env modelLower rest

/-- Embeds `resolve_provider` from `providers.py`.  An explicit provider
that is present in the registry but whose credential is missing raises
`ValueError`; an explicit provider absent from the registry falls
through to auto-detection, as does the `None` case. -/
def resolve_provider (env : String → Bool) (model : String)
    (explicit_provider : Option String) : Except String ProviderConfig :=
  let afterExplicit : Option (Except String ProviderConfig) :=
    match explicit_provider with
    | some p =>
      if p ≠ "" then
        match PROVIDERS.lookup p with
        | some cfg =>
          some (if isConfigured env cfg then .ok cfg
                else .error ("Provider '" ++ p ++ "' selected but " ++ cfg.api_key_env ++
                  " is not set"))
        | none => none
      else none
    | none => none
  match afterExplicit with
  | some r => r
  | none =>
    match scanHints env (strLower model) MODEL_PROVIDER_HINTS with
    | some cfg => .ok cfg
    | none =>
      match PROVIDERS.lookup "openrouter" with
      | some orCfg =>
        if isConfigured env orCfg then .ok orCfg
        else
          match PROVIDERS.lookup "deepseek" with
          | some dsCfg =>
            if isConfigured env dsCfg then .ok dsCfg
            else .error ("No configured provider found for model '" ++ model ++ "'")
          | none => .error ("No configured provider found for model '" ++ model ++ "'")
      | none => .error ("No configured provider found for model '" ++ model ++ "'")

/-! ## Embedding of `src/worker/pricing.py` -/

/-- Embeds the `PRICING` table: model → (input price, output price) per
million tokens, as exact rationals for the source's float literals. -/
def PRICING : List (String × (ℚ × ℚ)) :=
  [("deepseek-chat", (mkRat 14 100, mkRat 28 100)),
   ("deepseek-reasoner", (mkRat 55 100, mkRat 219 100)),
   ("gpt-4o", (mkRat 250 100, 10)),
   ("gpt-4o-mini", (mkRat 15 100, mkRat 60 100)),
   ("gpt-4.1", (2, 8)),
   ("gpt-4.1-mini", (mkRat 40 100, mkRat 160 100)),
   ("gpt-4.1-nano", (mkRat 10 100, mkRat 40 100)),
   ("o3-mini", (mkRat 110 100, mkRat 440 100)),
   ("anthropic/claude-sonnet-4", (3, 15)),
   ("anthropic/claude-haiku-4.5", (mkRat 80 100, 4)),
   ("google/gemini-2.5-flash-preview", (mkRat 15 100, mkRat 60 100)),
   ("google/gemini-2.0-flash-001", (mkRat 10 100, mkRat 40 100)),
   ("meta-llama/llama-4-maverick", (mkRat 20 100, mkRat 60 100)),
   ("qwen/qwen3-235b-a22b", (mkRat 20 100, mkRat 60 100))]

/-- Embeds `estimate_cost` from `pricing.py`:
`(input_tokens * p_in + output_tokens * p_out) / 1_000_000`, with the
default price `[1.0, 3.0]` for unknown models. -/
def estimate_cost (model : String) (input_tokens output_tokens : ℕ) : ℚ :=
  let prices := (PRICING.lookup model).getD (1, 3)
  rdiv (radd (rmul input_tokens prices.1) (rmul output_tokens prices.2)) 1000000

instance : DecidableEq (Except String ProviderConfig) := fun a b =>
  match a, b with
  | .ok x, .ok y => decidable_of_iff (x = y) (by simp)
  | .error x, .error y => decidable_of_iff (x = y) (by simp)
  | .ok _, .error _ => isFalse (by simp)
  | .error _, .ok _ => isFalse (by simp)

theorem estimate_cost_deepseek_sample :
    estimate_cost "deepseek-chat" 1000000 1000000 = mkRat 42 100 := by decide

theorem resolve_provider_deepseek_sample :
    resolve_provider (fun v => v = "DEEPSEEK_API_KEY") "deepseek-chat" none =
      .ok ⟨"deepseek", "https://api.deepseek.com/v1", "DEEPSEEK_API_KEY"⟩ := by decide

/-! ## Embedding of `src/api/models.py` -/

/-- Job lifecycle states (the string enum of `Job.status`). -/
inductive JobStatus
  | QUEUED
  | PROCESSING
  | COMPLETE
  | FAILED
  | CANCELLED
deriving DecidableEq, Repr

/-- Stage lifecycle states (the string enum of `StageResult.status`). -/
inductive StageStatus
  | PENDING
  | RUNNING
  | COMPLETE
  | FAILED
deriving DecidableEq, Repr

/-- Embeds the `Job` SQLModel row.  Timestamps are abstract ticks (`ℕ`). -/
structure Job where
  id : String
  profile_id : String
  filename : String
  status : JobStatus := .QUEUED
  current_stage : Option String := none
  created_at : ℕ := 0
  completed_at : Option ℕ := none
  error : Option String := none
  cost_estimate : ℚ := 0
  priority : ℕ := 5
deriving DecidableEq, Repr

/-- Embeds the `StageResult` SQLModel row. -/
structure StageResult where
  job_id : String
  stage_id : String
  status : StageStatus := .PENDING
  started_at : Option ℕ := none
  completed_at : Option ℕ := none
  input_tokens : ℕ := 0
  output_tokens : ℕ := 0
  model_used : Option String := none
  cost_estimate : ℚ := 0
  output_path : Option String := none
  error : Option String := none
deriving DecidableEq, Repr

/-! ## Embedding of the profile model (`src/worker/types.py` /
`profile_loader.py` as used by the processor) -/

/-- One pipeline stage of a profile. -/
structure Stage where
  name : String
  prompt_template : String
  system_message : String := ""
  model : String
  provider : Option String := none
  temperature : ℚ := 0
  max_tokens : ℕ := 0
  timeout : ℕ := 0
  save_intermediate : Bool := false
  filename_suffix : String := ""
deriving DecidableEq, Repr

/-- A loaded profile: its stable id and ordered stage list (the other
profile fields play no role in the verified claims). -/
structure Profile where
  id : String
  stages : List Stage
deriving DecidableEq, Repr

/-- Parsed content of the ASR artifact `transcription.json`
(`segments`, `text`, `duration`). -/
structure TranscriptData where
  segments : List WSeg
  text : String
  duration : ℚ
deriving DecidableEq, Repr

/-! ## Filesystem and engine state -/

/-- Content of a file in the model filesystem: the input media file, the
ASR JSON artifact, or a plain-text artifact. -/
inductive FileData
  | media
  | json (t : TranscriptData)
  | text (s : String)
deriving DecidableEq, Repr

/-- State threaded through the worker: the `job` table, the
`stageresult` table, the filesystem (path → content, first entry wins)
and a clock tick used for timestamps. -/
structure EngineState where
  jobs : List Job
  stages : List StageResult
  fs : List (String × FileData)
  now : ℕ := 0
deriving Repr

/-- Path existence, `Path.exists()`. -/
def fsExists (fs : List (String × FileData)) (p : String) : Bool :=
  (fs.lookup p).isSome

/-- Write (create or overwrite) a file. -/
def fsWrite (fs : List (String × FileData)) (p : String) (d : FileData) :
    List (String × FileData) :=
  (p, d) :: fs.filter (fun e => e.1 != p)

/-- Remove a file. -/
def fsRemove (fs : List (String × FileData)) (p : String) : List (String × FileData) :=
  fs.filter (fun e => e.1 != p)

/-- Python `Path(p).read_text()` on a file known to hold text; reading a
missing or non-text file is abstracted to the empty string (the worker
only reads back files it wrote as text). -/
def readText (fs : List (String × FileData)) (p : String) : String :=
  match fs.lookup p with
  | some (.text s) => s
  | _ => ""

/-- Directory constants of `JobProcessor.__init__` (processing and
output roots made concrete). -/
def quarantineDir : String := "processing/quarantine"

def errorDir : String := "processing/errors"

def archiveDir : String := "processing/archive"

def jobDataDir (jobId : String) : String := "processing/job_data/" ++ jobId

def transcriptsDir : String := "output/transcripts"

def docsDir : String := "output/docs"

/-- Python `Path(p).name`: the component after the last slash. -/
def baseName (p : String) : String :=
  ⟨(p.data.reverse.takeWhile (fun c => c != '/')).reverse⟩

/-- Python `Path(p).stem`: `baseName` without its last extension. -/
def stem (p : String) : String :=
  let b := (baseName p).data
  if b.contains '.' then ⟨((b.reverse.dropWhile (fun c => c != '.')).drop 1).reverse⟩
  else ⟨b⟩

/-- Find a job row by id (`session.get(Job, job_id)`). -/
def getJob (s : EngineState) (id : String) : Option Job :=
  s.jobs.find? (fun j => j.id == id)

/-- Mutate-and-commit of a single job row. -/
def updateJob (s : EngineState) (id : String) (f : Job → Job) : EngineState :=
  { s with jobs := s.jobs.map (fun j => if j.id == id then f j else j) }

/-- Whether a stage row belongs to `(jobId, stageId)`. -/
def rowMatch (jobId stageId : String) (r : StageResult) : Bool :=
  r.job_id == jobId && r.stage_id == stageId

/-- Update the first list element satisfying `p`. -/
def updateFirst (p : α → Bool) (f : α → α) : List α → List α
  | [] => []
  | x :: xs => if p x then f x :: xs else x :: updateFirst p f xs

/-- Keyword arguments of `_record_stage`: only the provided fields are
written onto the row. -/
structure StageUpdate where
  model_used : Option String := none
  input_tokens : Option ℕ := none
  output_tokens : Option ℕ := none
  cost_estimate : Option ℚ := none
  output_path : Option String := none
  error : Option String := none
deriving Repr

/-- Apply the provided keyword arguments to a stage row. -/
def applyUpdate (u : StageUpdate) (r : StageResult) : StageResult :=
  { r with
    model_used := match u.model_used with | some v => some v | none => r.model_used
    input_tokens := match u.input_tokens with | some v => v | none => r.input_tokens
    output_tokens := match u.output_tokens with | some v => v | none => r.output_tokens
    cost_estimate := match u.cost_estimate with | some v => v | none => r.cost_estimate
    output_path := match u.output_path with | some v => some v | none => r.output_path
    error := match u.error with | some v => some v | none => r.error }

/-- Embeds `JobProcessor._record_stage`: upsert the `(job_id, stage_id)`
row, set its status (and a timestamp on RUNNING/COMPLETE), apply the
keyword arguments, and set `Job.current_stage` in the same commit. -/
def record_stage (s : EngineState) (jobId stageId : String) (status : StageStatus)
    (u : StageUpdate) : EngineState :=
  let setStatus (r : StageResult) : StageResult :=
    match status with
    | .RUNNING => { r with status := status, started_at := some s.now }
    | .COMPLETE => { r with status := status, completed_at := some s.now }
    | _ => { r with status := status }
  let write (r : StageResult) : StageResult := applyUpdate u (setStatus r)
  let stages' :=
    if (s.stages.find? (rowMatch jobId stageId)).isSome then
      updateFirst (rowMatch jobId stageId) write s.stages
    else s.stages ++ [write { job_id := jobId, stage_id := stageId }]
  updateJob { s with stages := stages' } jobId (fun j => { j with current_stage := some stageId })

/-- Embeds `JobProcessor._get_stage_result`: the first stage row for
`(job_id, stage_id)` whose status is COMPLETE. -/
def get_stage_result (s : EngineState) (jobId stageId : String) : Option StageResult :=
  s.stages.find? (fun r => rowMatch jobId stageId r && r.status == .COMPLETE)

/-! ## String helpers used by the processor -/

/-- Python `sep.join(l)`. -/
def joinWith (sep : String) : List String → String
  | [] => ""
  | [x] => x
  | x :: xs => x ++ sep ++ joinWith sep xs

/-- Python `f"{n:02d}"` for the nonnegative values produced by the
timestamp arithmetic. -/
def pad2 (n : ℕ) : String :=
  if n < 10 then "0" ++ toString n else toString n

/-- Floor of a nonnegative rational number of seconds (negative values,
which the pipeline never produces, clamp to zero). -/
def qFloorNat (q : ℚ) : ℕ := q.num.toNat / q.den

/-- Embeds `JobProcessor._format_timestamp` / the inline timestamp code
of `_build_raw_transcript`: `HH:MM:SS` from seconds. -/
def format_timestamp (q : ℚ) : String :=
  pad2 (qFloorNat q / 3600) ++ ":" ++ pad2 (qFloorNat q % 3600 / 60) ++ ":" ++
    pad2 (qFloorNat q % 60)

/-- Embeds `JobProcessor._build_raw_transcript`: one `[HH:MM:SS] text`
line per segment with nonempty stripped text. -/
def build_raw_transcript (segments : List WSeg) : String :=
  joinWith "\n" (segments.filterMap (fun seg =>
    let text := strTrim seg.text
    if text = "" then none
    else some ("[" ++ format_timestamp seg.start ++ "] " ++ text)))

/-- Loop of `JobProcessor._build_speaker_transcript`: `lines` is the
accumulated line list, `current_speaker`/`current_text` the in-progress
speaker block. -/
def bstLoop : List MSeg → List String → Option String → List String → List String
  | [], lines, _, current_text =>
    if current_text ≠ [] then lines ++ [joinWith " " current_text] else lines
  | seg :: rest, lines, current_speaker, current_text =>
    let text := strTrim seg.text
    if text = "" then bstLoop rest lines current_speaker current_text
    else if some seg.speaker ≠ current_speaker then
      let lines' := if current_text ≠ [] then lines ++ [joinWith " " current_text, ""] else lines
      bstLoop rest (lines' ++ ["**" ++ seg.speaker ++ ":**"]) (some seg.speaker) [text]
    else bstLoop rest lines current_speaker (current_text ++ [text])

/-- Embeds `JobProcessor._build_speaker_transcript`. -/
def build_speaker_transcript (segments : List MSeg) : String :=
  joinWith "\n" (bstLoop segments [] none [])

/-- Fuel-driven all-occurrence replacement on character lists (the
library `String.replace` is byte-position based and does not reduce in
the kernel).  Fuel is the input length, enough for every step. -/
def replFuel (pat rep : List Char) : ℕ → List Char → List Char
  | 0, l => l
  | _ + 1, [] => []
  | f + 1, c :: t =>
    if pat ≠ [] && pat.isPrefixOf (c :: t) then
      rep ++ replFuel pat rep f ((c :: t).drop pat.length)
    else c :: replFuel pat rep f t

/-- Python `s.replace(pat, rep)` for a nonempty pattern. -/
def strReplace (s pat rep : String) : String :=
  if pat = "" then s else ⟨replFuel pat.data rep.data s.data.length s.data⟩

/-- Prompt assembly of `_process_with_profile`: `{transcript}` is the
current pipeline input; `{cleaned_transcript}`, when the template
references it, is the recorded output of a prior stage named `clean`,
and otherwise the current input.  (Python uses `str.format`; the
substitution is modelled as literal replacement of the two
placeholders.) -/
def build_prompt (template current_input : String) (previous_outputs : List (String × String)) :
    String :=
  let withT := strReplace template "{transcript}" current_input
  if substrOf "{cleaned_transcript}" template then
    strReplace withT "{cleaned_transcript}"
      (match previous_outputs.lookup "clean" with
       | some v => v
       | none => current_input)
  else withT

/-! ## Oracle for external services -/

/-- Everything outside the engine, fixed for one worker run: which
clients were initialized by `_initialize_clients` (`groq`, `diarizer`,
`formatter`), the credential environment, the loaded profile set, and
the outcome of each remote call (`Except.error` models a raised
exception). -/
structure WorldConfig where
  env : String → Bool
  groq : Bool := true
  diarizer : Bool := false
  formatter : Bool := false
  transcribe : Except String TranscriptData := .error "no ASR"
  diarize : Except String (List DSeg) := .error "no diarization"
  format_llm : String → String → Except String String := fun _ _ => .error "no formatter"
  llm : String → String → Except String (String × ℕ × ℕ) := fun _ _ => .error "no LLM"
  profiles : List Profile := []

/-! ## Embedding of the output generator (`src/worker/output.py`) -/

/-- Frontmatter wrapper of `_create_markdown` / `_create_stage_markdown`.
Dates, titles and optional metadata lines are abstracted to a fixed
header; the content body follows the frontmatter, as in the source.
None of the verified claims inspects the header. -/
def mdWrap (content : String) : String :=
  "---\n---\n\n" ++ content

/-- Embeds `_derive_filename`: sanitized base plus underscore-joined
suffix plus extension (the regex character cleanup is abstracted to the
identity; no claim depends on it). -/
def derive_filename (base suffix extension : String) : String :=
  if suffix ≠ "" then base ++ "_" ++ (⟨suffix.data.dropWhile (fun c => c == '_')⟩ : String) ++ extension
  else base ++ extension

/-- Embeds `OutputGenerator.generate_outputs` for the default pipeline:
a markdown file for the markdown note types and a rendered document for
the document note types, both carrying the formatted text as body (the
binary docx rendering is abstracted to its text content). -/
def generate_outputs (s : EngineState) (formatted_text note_type filename : String) :
    EngineState × List String :=
  let generate_md := ["meeting", "supervision", "client", "braindump"].contains note_type
  let generate_docx := ["meeting", "supervision", "client", "lecture"].contains note_type
  let mdPath := transcriptsDir ++ "/" ++ filename ++ ".md"
  let (s1, out1) :=
    if generate_md then
      ({ s with fs := fsWrite s.fs mdPath (.text (mdWrap formatted_text)) }, [mdPath])
    else (s, [])
  if generate_docx then
    let docxPath := docsDir ++ "/" ++ filename ++ ".docx"
    ({ s1 with fs := fsWrite s1.fs docxPath (.text formatted_text) }, out1 ++ [docxPath])
  else (s1, out1)

/-- Embeds `OutputGenerator.generate_multi_stage_output`: a markdown
file under the transcripts directory and a rendered document under the
docs directory, both with the stage content as body. -/
def generate_multi_stage_output (s : EngineState) (content filename_base suffix : String) :
    EngineState × List String :=
  let mdPath := transcriptsDir ++ "/" ++ derive_filename filename_base suffix ".md"
  let docxPath := docsDir ++ "/" ++ derive_filename filename_base suffix ".docx"
  let s1 := { s with fs := fsWrite s.fs mdPath (.text (mdWrap content)) }
  let s2 := { s1 with fs := fsWrite s1.fs docxPath (.text content) }
  (s2, [mdPath, docxPath])

/-! ## Embedding of `JobProcessor` (`src/worker/processor.py`) -/

/-- Diarization block of `JobProcessor._process_standard`: when the
diarizer is initialized, record RUNNING and run it (COMPLETE on success,
FAILED with the error string plus a substituted single whole-audio
`SPEAKER_00` segment on failure); when it is not initialized, substitute
the single segment without recording any stage row. -/
def diarization_step (cfg : WorldConfig) (s : EngineState) (jobId : String)
    (duration : ℚ) : EngineState × List DSeg :=
  if cfg.diarizer then
    let sR := record_stage s jobId "diarization" .RUNNING {}
    match cfg.diarize with
    | .ok segs => (record_stage sR jobId "diarization" .COMPLETE {}, segs)
    | .error e =>
      (record_stage sR jobId "diarization" .FAILED { error := some e },
       [⟨"SPEAKER_00", 0, duration⟩])
  else (s, [⟨"SPEAKER_00", 0, duration⟩])

/-- Embeds `DeepSeekFormatter.format_transcript` (`formatter.py`):
build the prompt and call the chat-completion API — `format_llm` is the
joint outcome of `_get_prompt` and `_call_api` on (transcript,
note type), with `.error` carrying the raised exception's message.  The
whole body sits inside a catch-all `except`, so the function never
raises: on any failure it returns the raw transcript behind a fallback
header instead. -/
def format_transcript (cfg : WorldConfig) (transcript note_type : String) : String :=
  match cfg.format_llm transcript note_type with
  | .ok content => content
  | .error e =>
    "<!-- Formatting failed: " ++ e ++ " -->\n\n# Raw Transcript\n\n" ++ transcript

/-- Formatting block of `JobProcessor._process_standard`: record
RUNNING and — when the formatter is initialized — call
`format_transcript` and record COMPLETE.  Because `format_transcript`
catches every exception and returns the fallback text instead of
raising, the processor's own `except` branch (which would record the
stage FAILED) is unreachable on this path. -/
def formatting_step (cfg : WorldConfig) (s : EngineState) (jobId : String)
    (speaker_transcript note_type : String) : EngineState × String :=
  let s2 := record_stage s jobId "formatting" .RUNNING {}
  if cfg.formatter then
    (record_stage s2 jobId "formatting" .COMPLETE {},
     format_transcript cfg speaker_transcript note_type)
  else (s2, speaker_transcript)

/-- Embeds `JobProcessor._process_standard` (default pipeline):
diarization (non-fatal), speaker merge, formatting (non-fatal) and
output generation.  Returns the final state and the output paths;
`result["success"]` is always set on this path. -/
def process_standard (cfg : WorldConfig) (s : EngineState) (job : Job)
    (audio_path : String) (td : TranscriptData) (note_type : String) :
    EngineState × List String :=
  let (s1, diarization_segments) := diarization_step cfg s job.id td.duration
  let merged := merge_transcript_with_speakers td.segments diarization_segments
  let speaker_transcript := build_speaker_transcript merged
  let (s3, formatted_text) := formatting_step cfg s1 job.id speaker_transcript note_type
  let s4 := record_stage s3 job.id "output" .RUNNING {}
  let (s5, outputs) := generate_outputs s4 formatted_text note_type (stem audio_path)
  let s6 := record_stage s5 job.id "output" .COMPLETE {}
  (s6, outputs)

/-- Fresh execution of one profile stage inside the `try` of
`_process_with_profile`: mark RUNNING, resolve the provider, build the
prompt, call the LLM, price the usage, write the stage artifact and mark
COMPLETE; any raised error marks the row FAILED and is re-raised. -/
def exec_stage (cfg : WorldConfig) (jobId : String) (stage : Stage)
    (current_input : String) (previous_outputs : List (String × String))
    (s : EngineState) : EngineState × Except String (String × ℚ) :=
  let s1 := record_stage s jobId stage.name .RUNNING { model_used := some stage.model }
  match resolve_provider cfg.env stage.model stage.provider with
  | .error e =>
    (record_stage s1 jobId stage.name .FAILED { error := some e, model_used := some stage.model },
     .error e)
  | .ok _ =>
    let prompt := build_prompt stage.prompt_template current_input previous_outputs
    match cfg.llm stage.name prompt with
    | .error e =>
      (record_stage s1 jobId stage.name .FAILED { error := some e, model_used := some stage.model },
       .error e)
    | .ok (output, input_tokens, output_tokens) =>
      let stage_cost := estimate_cost stage.model input_tokens output_tokens
      let path := jobDataDir jobId ++ "/stage_" ++ stage.name ++ ".txt"
      let s2 := { s1 with fs := fsWrite s1.fs path (.text output) }
      let s3 := record_stage s2 jobId stage.name .COMPLETE
        { model_used := some stage.model, input_tokens := some input_tokens,
          output_tokens := some output_tokens, cost_estimate := some stage_cost,
          output_path := some path }
      (s3, .ok (output, stage_cost))

/-- Stage loop of `_process_with_profile` with resume support: a stage
whose COMPLETE row names an existing artifact is reloaded (its recorded
cost re-added to the running total); otherwise it is executed afresh; a
failure terminates the loop with the error.  Returns the final pipeline
input, the map of stage outputs, and the accumulated total cost. -/
def run_stages (cfg : WorldConfig) (jobId : String) :
    List Stage → EngineState → String → List (String × String) → ℚ →
    EngineState × Except String (String × List (String × String) × ℚ)
  | [], s, current_input, previous_outputs, total_cost =>
    (s, .ok (current_input, previous_outputs, total_cost))
  | stage :: rest, s, current_input, previous_outputs, total_cost =>
    let cachedContent : Option (String × ℚ) :=
      match get_stage_result s jobId stage.name with
      | some cached =>
        match cached.output_path with
        | some p => if fsExists s.fs p then some (readText s.fs p, cached.cost_estimate) else none
        | none => none
      | none => none
    match cachedContent with
    | some (content, cachedCost) =>
      run_stages cfg jobId rest s content (previous_outputs ++ [(stage.name, content)])
        (radd total_cost cachedCost)
    | none =>
      match exec_stage cfg jobId stage current_input previous_outputs s with
      | (s', .error e) => (s', .error e)
      | (s', .ok (output, stage_cost)) =>
        run_stages cfg jobId rest s' output (previous_outputs ++ [(stage.name, output)])
          (radd total_cost stage_cost)

/-- One step of the output loop of `_process_with_profile`: generate
the files of one `save_intermediate` stage and append their paths. -/
def output_fold_step (audio_path : String) (acc : EngineState × List String)
    (p : Stage × String) : EngineState × List String :=
  let r := generate_multi_stage_output acc.1 p.2 (stem audio_path) p.1.filename_suffix
  (r.1, acc.2 ++ r.2)

/-- Embeds `JobProcessor._process_with_profile`: run the stage loop,
commit the accumulated cost onto the job, and generate the output files
for every `save_intermediate` stage.  A stage failure propagates (the
job cost commit and the output stage are skipped). -/
def process_with_profile (cfg : WorldConfig) (s : EngineState) (job : Job)
    (audio_path : String) (td : TranscriptData) (profile : Profile) :
    EngineState × Except String (List String) :=
  let raw_transcript := build_raw_transcript td.segments
  match run_stages cfg job.id profile.stages s raw_transcript [] 0 with
  | (s1, .error e) => (s1, .error e)
  | (s1, .ok (_, previous_outputs, total_cost)) =>
    let s2 := updateJob s1 job.id (fun j => { j with cost_estimate := total_cost })
    let s3 := record_stage s2 job.id "output" .RUNNING {}
    let stage_outputs := profile.stages.filterMap (fun st =>
      match previous_outputs.lookup st.name with
      | some content => if st.save_intermediate then some (st, content) else none
      | none => none)
    let (s4, outs) := stage_outputs.foldl (output_fold_step audio_path) (s3, [])
    let s5 := record_stage s4 job.id "output" .COMPLETE {}
    (s5, .ok outs)

/-- Embeds `JobProcessor._safe_archive` for a successful run: move the
source file into the archive directory; a move failure (missing source)
is swallowed.  No output-file verification is performed. -/
def safe_archive (s : EngineState) (audio_path : String) : EngineState :=
  match s.fs.lookup audio_path with
  | some d =>
    { s with fs := fsWrite (fsRemove s.fs audio_path) (archiveDir ++ "/" ++ baseName audio_path) d }
  | none => s

/-- Source-file location of `_run_job`: the quarantine copy is checked
first, then the original path; neither existing raises `FileNotFoundError`. -/
def locate_source (s : EngineState) (job : Job) : Option String :=
  let qpath := quarantineDir ++ "/" ++ baseName job.filename
  if fsExists s.fs qpath then some qpath
  else if fsExists s.fs job.filename then some job.filename
  else none

/-- Cached-transcription reload check of `_run_job`: a COMPLETE
`transcription` row whose `output_path` holds a parseable JSON artifact
yields the cached transcript; anything else forces a re-run. -/
def cached_transcript (s : EngineState) (jobId : String) : Option TranscriptData :=
  match get_stage_result s jobId "transcription" with
  | some cached =>
    match cached.output_path with
    | some p =>
      match s.fs.lookup p with
      | some (.json t) => some t
      | _ => none
    | none => none
  | none => none

/-- Transcription phase of `_run_job`: reload the cached artifact, or
mark RUNNING, call the ASR client (raising when it is not initialized),
persist `transcription.json` and mark COMPLETE. -/
def transcription_step (cfg : WorldConfig) (s : EngineState) (job : Job) :
    EngineState × Except String TranscriptData :=
  match cached_transcript s job.id with
  | some t => (s, .ok t)
  | none =>
    let s1 := record_stage s job.id "transcription" .RUNNING {}
    if cfg.groq then
      match cfg.transcribe with
      | .ok td =>
        let tfile := jobDataDir job.id ++ "/transcription.json"
        let s2 := { s1 with fs := fsWrite s1.fs tfile (.json td) }
        (record_stage s2 job.id "transcription" .COMPLETE { output_path := some tfile },
         .ok td)
      | .error e => (s1, .error e)
    else (s1, .error "Groq client not initialized")

/-- Dispatch of `_run_job`: the profile pipeline when the job's profile
id is nonempty and resolves in the loader, the standard pipeline with
the profile id as note type (default `meeting`) otherwise. -/
def dispatch_step (cfg : WorldConfig) (s : EngineState) (job : Job)
    (file_path : String) (td : TranscriptData) :
    EngineState × Except String (List String) :=
  match
    (if job.profile_id != "" then cfg.profiles.find? (fun p => p.id == job.profile_id)
     else none) with
  | some profile => process_with_profile cfg s job file_path td profile
  | none =>
    let note_type := if job.profile_id = "" then "meeting" else job.profile_id
    let r := process_standard cfg s job file_path td note_type
    (r.1, .ok r.2)

/-- Embeds `JobProcessor._run_job`: locate the source file (quarantine
first), run or reload the transcription stage, dispatch on whether the
job's profile id resolves to a loaded profile, and archive the source on
success. -/
def run_job (cfg : WorldConfig) (s : EngineState) (job : Job) :
    EngineState × Except String Unit :=
  match locate_source s job with
  | none => (s, .error ("File not found: " ++ job.filename))
  | some file_path =>
    match transcription_step cfg s job with
    | (sT, .error e) => (sT, .error e)
    | (sT, .ok td) =>
      match dispatch_step cfg sT job file_path td with
      | (sD, .error e) => (sD, .error e)
      | (sD, .ok _) => (safe_archive sD file_path, .ok ())

/-- Embeds `JobProcessor.process_job`: set PROCESSING, run the job, set
COMPLETE on success; on any raised error set FAILED with the error
string and move the original source file to the error directory. -/
def process_job (cfg : WorldConfig) (s : EngineState) (job_id : String) : EngineState :=
  match getJob s job_id with
  | none => s
  | some job =>
    let s1 := updateJob s job_id (fun j => { j with status := .PROCESSING })
    match run_job cfg s1 job with
    | (s2, .ok _) =>
      updateJob s2 job_id (fun j =>
        { j with status := .COMPLETE, completed_at := some s2.now,
                 current_stage := some "complete" })
    | (s2, .error e) =>
      let s3 := updateJob s2 job_id (fun j => { j with status := .FAILED, error := some e })
      match s3.fs.lookup job.filename with
      | some d =>
        { s3 with
          fs := fsWrite (fsRemove s3.fs job.filename)
            (errorDir ++ "/" ++ baseName job.filename) d }
      | none => s3

/-! ## Embedding of `src/run_worker.py` -/

/-- Embeds `get_next_job`: the first `QUEUED` job ordered by
`created_at` alone (`select(Job).where(status == "QUEUED").order_by(created_at).limit(1)`). -/
def get_next_job (jobs : List Job) : Option Job :=
  ((jobs.filter (fun j => j.status == .QUEUED)).insertionSort
    (fun a b => a.created_at ≤ b.created_at)).head?

/-- Embeds `reset_stuck_jobs`: every `PROCESSING` job is reset to
`QUEUED`; stage rows are left intact. -/
def reset_stuck_jobs (s : EngineState) : EngineState :=
  { s with jobs := s.jobs.map (fun j =>
      if j.status == .PROCESSING then { j with status := .QUEUED } else j) }

/-- One iteration of the worker loop: claim via `get_next_job` and, when
a job is returned, process it by id. -/
def worker_step (cfg : WorldConfig) (s : EngineState) : EngineState :=
  match get_next_job s.jobs with
  | none => s
  | some job => process_job cfg s job.id

end Pipeline


namespace Pipeline

/-! ## Lemmas about the speaker merge -/

theorem calculate_overlap_nonneg (a b c d : ℚ) : 0 ≤ calculate_overlap a b c d := by
  rw [calculate_overlap, rmax_eq_max]
  exact le_max_left 0 _

/-- Total overlap of one speaker's diarization segments with the
interval of a whisper segment — the quantity named by the
specification's 50% rule. -/
def totalOverlap (w : WSeg) (sp : String) : List DSeg → ℚ
  | [] => 0
  | d :: rest =>
    (if d.speaker = sp then calculate_overlap w.start w.stop d.start d.stop else 0) +
      totalOverlap w sp rest

theorem totalOverlap_nonneg (w : WSeg) (sp : String) (ds : List DSeg) :
    0 ≤ totalOverlap w sp ds := by
  induction ds with
  | nil => simp [totalOverlap]
  | cons d rest ih =>
    rw [totalOverlap]
    have h := calculate_overlap_nonneg w.start w.stop d.start d.stop
    split <;> linarith

theorem addOverlap_lookup_self (acc : List (String × ℚ)) (sp : String) (v : ℚ) :
    (addOverlap acc sp v).lookup sp = some (((acc.lookup sp).getD 0) + v) := by
  induction acc with
  | nil => simp [addOverlap, radd_eq]
  | cons e rest ih =>
    obtain ⟨k, w⟩ := e
    by_cases hk : k = sp
    · subst hk
      simp [addOverlap, List.lookup, radd_eq]
    · simp [addOverlap, hk, List.lookup, beq_false_of_ne (Ne.symm hk), ih]

theorem addOverlap_lookup_other (acc : List (String × ℚ)) (sp sp' : String) (v : ℚ)
    (h : sp' ≠ sp) : (addOverlap acc sp v).lookup sp' = acc.lookup sp' := by
  induction acc with
  | nil => simp [addOverlap, List.lookup, beq_false_of_ne h]
  | cons e rest ih =>
    obtain ⟨k, w⟩ := e
    by_cases hk : k = sp
    · subst hk
      simp [addOverlap, List.lookup, beq_false_of_ne h]
    · by_cases hk' : sp' = k
      · subst hk'
        simp [addOverlap, hk, List.lookup]
      · simp [addOverlap, hk, List.lookup, beq_false_of_ne hk', ih]

theorem addOverlap_keys (acc : List (String × ℚ)) (sp : String) (v : ℚ) :
    (addOverlap acc sp v).map Prod.fst =
      (if sp ∈ acc.map Prod.fst then acc.map Prod.fst else acc.map Prod.fst ++ [sp]) := by
  induction acc with
  | nil => simp [addOverlap]
  | cons e rest ih =>
    obtain ⟨k, w⟩ := e
    by_cases hk : k = sp
    · subst hk
      simp [addOverlap]
    · simp [addOverlap, hk, ih, Ne.symm hk]
      split
      · next h => simp [List.mem_cons, h]
      · next h => simp [List.mem_cons, h, Ne.symm hk]

theorem addOverlap_pos (acc : List (String × ℚ)) (sp : String) (v : ℚ)
    (hacc : ∀ p ∈ acc, 0 < p.2) (hv : 0 < v) :
    ∀ p ∈ addOverlap acc sp v, 0 < p.2 := by
  induction acc with
  | nil =>
    intro p hp
    simp [addOverlap] at hp
    simp [hp, hv]
  | cons e rest ih =>
    obtain ⟨k, w⟩ := e
    intro p hp
    by_cases hk : k = sp
    · subst hk
      simp [addOverlap, radd_eq] at hp
      rcases hp with hp | hp
      · have hw : 0 < w := hacc (k, w) (by simp)
        simp [hp]
        linarith
      · exact hacc p (by simp [hp])
    · simp only [addOverlap, if_neg hk, List.mem_cons] at hp
      rcases hp with hp | hp
      · exact hacc p (by simp [hp])
      · exact ih (fun q hq => hacc q (by simp [hq])) p hp

/-- Body of the `speakerOverlaps` fold. -/
def overlapStep (wStart wEnd : ℚ) (acc : List (String × ℚ)) (d : DSeg) :
    List (String × ℚ) :=
  let overlap := calculate_overlap wStart wEnd d.start d.stop
  if 0 < overlap then addOverlap acc d.speaker overlap else acc

theorem speakerOverlaps_eq_foldl (wStart wEnd : ℚ) (ds : List DSeg) :
    speakerOverlaps wStart wEnd ds = ds.foldl (overlapStep wStart wEnd) [] := rfl

theorem overlaps_fold_lookup (w : WSeg) (ds : List DSeg) :
    ∀ acc sp, ((ds.foldl (overlapStep w.start w.stop) acc).lookup sp).getD 0 =
      ((acc.lookup sp).getD 0) + totalOverlap w sp ds := by
  induction ds with
  | nil => intro acc sp; simp [totalOverlap]
  | cons d rest ih =>
    intro acc sp
    rw [List.foldl_cons, ih, totalOverlap]
    have hnn := calculate_overlap_nonneg w.start w.stop d.start d.stop
    by_cases hpos : 0 < calculate_overlap w.start w.stop d.start d.stop
    · by_cases hsp : d.speaker = sp
      · subst hsp
        rw [overlapStep]
        simp only [if_pos hpos, addOverlap_lookup_self]
        simp
        ring
      · rw [overlapStep]
        simp only [if_pos hpos, addOverlap_lookup_other _ _ _ _ (Ne.symm hsp)]
        simp [hsp]
    · have hzero : calculate_overlap w.start w.stop d.start d.stop = 0 :=
        le_antisymm (not_lt.mp hpos) hnn
      simp only [overlapStep]
      rw [if_neg hpos]
      simp only [hzero]
      split <;> ring

theorem overlaps_fold_keys_nodup (wStart wEnd : ℚ) (ds : List DSeg) :
    ∀ acc, (acc.map Prod.fst).Nodup →
      ((ds.foldl (overlapStep wStart wEnd) acc).map Prod.fst).Nodup := by
  induction ds with
  | nil => intro acc h; simpa using h
  | cons d rest ih =>
    intro acc h
    rw [List.foldl_cons]
    apply ih
    rw [overlapStep]
    split
    · rw [addOverlap_keys]
      split
      · exact h
      · next hmem =>
          rw [List.nodup_append]
          refine ⟨h, List.nodup_singleton _, ?_⟩
          intro x hx hx'
          simp only [List.mem_singleton] at hx'
          subst hx'
          exact hmem hx
    · exact h

theorem overlaps_fold_pos (wStart wEnd : ℚ) (ds : List DSeg) :
    ∀ acc, (∀ p ∈ acc, 0 < p.2) →
      ∀ p ∈ ds.foldl (overlapStep wStart wEnd) acc, 0 < p.2 := by
  induction ds with
  | nil => intro acc h; simpa using h
  | cons d rest ih =>
    intro acc h
    rw [List.foldl_cons]
    apply ih
    rw [overlapStep]
    split
    · next hpos => exact addOverlap_pos acc d.speaker _ h hpos
    · exact h

theorem lookup_of_mem_nodup (l : List (String × ℚ)) (p : String × ℚ)
    (hnd : (l.map Prod.fst).Nodup) (hp : p ∈ l) : l.lookup p.1 = some p.2 := by
  induction l with
  | nil => simp at hp
  | cons e rest ih =>
    obtain ⟨k, w⟩ := e
    simp only [List.map_cons, List.nodup_cons] at hnd
    rcases List.mem_cons.mp hp with hp | hp
    · subst hp
      simp [List.lookup]
    · have hk : p.1 ≠ k := by
        intro hkeq
        exact hnd.1 (hkeq ▸ (List.mem_map.mpr ⟨p, hp, rfl⟩))
      simp [List.lookup, beq_false_of_ne hk]
      exact ih hnd.2 hp

theorem maxEntry_mem (first : String × ℚ) (rest : List (String × ℚ)) :
    maxEntry first rest ∈ first :: rest := by
  induction rest generalizing first with
  | nil => simp [maxEntry]
  | cons e t ih =>
    have key : maxEntry first (e :: t) = maxEntry (if first.2 < e.2 then e else first) t := rfl
    rw [key]
    rcases List.mem_cons.mp (ih (if first.2 < e.2 then e else first)) with h | h
    · rw [h]
      split <;> simp
    · simp [List.mem_cons, h]

theorem maxEntry_le (first : String × ℚ) (rest : List (String × ℚ)) :
    ∀ p ∈ first :: rest, p.2 ≤ (maxEntry first rest).2 := by
  induction rest generalizing first with
  | nil => intro p hp; simp at hp; simp [maxEntry, hp]
  | cons e t ih =>
    intro p hp
    rw [maxEntry, List.foldl_cons]
    have step : first.2 ≤ (if first.2 < e.2 then e else first).2 ∧
        e.2 ≤ (if first.2 < e.2 then e else first).2 := by
      split <;> constructor <;> (simp_all; try linarith)
    rcases List.mem_cons.mp hp with hp | hp
    · subst hp
      exact le_trans step.1 (ih _ _ (by simp))
    · rcases List.mem_cons.mp hp with hp | hp
      · subst hp
        exact le_trans step.2 (ih _ _ (by simp))
      · exact ih _ p (by simp [hp])

theorem mergeConsecutiveAux_head (c : MSeg) (l : List MSeg) :
    ∃ h t, mergeConsecutiveAux c l = h :: t ∧ h.speaker = c.speaker := by
  induction l generalizing c with
  | nil => exact ⟨c, [], rfl, rfl⟩
  | cons seg rest ih =>
    rw [mergeConsecutiveAux]
    by_cases hsp : seg.speaker = c.speaker
    · rw [if_pos hsp]
      obtain ⟨h, t, heq, hspk⟩ :=
        ih { c with stop := seg.stop, text := joinTexts c.text seg.text }
      exact ⟨h, t, heq, hspk⟩
    · rw [if_neg hsp]
      obtain ⟨h, t, heq, _⟩ := ih seg
      exact ⟨c, mergeConsecutiveAux seg rest, rfl, rfl⟩

theorem mergeConsecutiveAux_chain (c : MSeg) (l : List MSeg) :
    List.Chain' (fun a b : MSeg => a.speaker ≠ b.speaker) (mergeConsecutiveAux c l) := by
  induction l generalizing c with
  | nil => simp [mergeConsecutiveAux]
  | cons seg rest ih =>
    rw [mergeConsecutiveAux]
    by_cases hsp : seg.speaker = c.speaker
    · rw [if_pos hsp]
      exact ih _
    · rw [if_neg hsp]
      obtain ⟨h, t, heq, hspk⟩ := mergeConsecutiveAux_head seg rest
      rw [heq, List.chain'_cons]
      refine ⟨?_, heq ▸ ih seg⟩
      rw [hspk]
      exact fun hc => hsp hc.symm

theorem merge_consecutive_segments_chain (l : List MSeg) :
    List.Chain' (fun a b : MSeg => a.speaker ≠ b.speaker) (merge_consecutive_segments l) := by
  cases l with
  | nil => simp [merge_consecutive_segments]
  | cons seg rest => exact mergeConsecutiveAux_chain seg rest

/-! ## Claims C5, C6, C7 -/

/-- C6: merging any ASR list with an empty diarization list yields one
output segment per input, labeled `SPEAKER_00`, with start, end and text
copied from the input; and merging an empty ASR list with any
diarization list yields the empty list. -/
theorem C6_merge_empty_cases (ws : List WSeg) (ds : List DSeg) :
    merge_transcript_with_speakers ws [] =
      ws.map (fun s => ⟨s.start, s.stop, s.text, "SPEAKER_00"⟩) ∧
    merge_transcript_with_speakers [] ds = [] := by
  constructor
  · cases ws with
    | nil => simp [merge_transcript_with_speakers]
    | cons w rest => simp [merge_transcript_with_speakers]
  · simp [merge_transcript_with_speakers]

/-- C5 counterexample: with an empty diarization list and two ASR
segments the merge returns two consecutive `SPEAKER_00` segments —
the collapse step is not applied on the empty-diarization path. -/
theorem C5_counterexample :
    merge_transcript_with_speakers [⟨0, 1, "a"⟩, ⟨1, 2, "b"⟩] [] =
      [⟨0, 1, "a", "SPEAKER_00"⟩, ⟨1, 2, "b", "SPEAKER_00"⟩] ∧
    ¬ List.Chain' (fun a b : MSeg => a.speaker ≠ b.speaker)
        (merge_transcript_with_speakers [⟨0, 1, "a"⟩, ⟨1, 2, "b"⟩] []) := by
  have heq : merge_transcript_with_speakers [⟨0, 1, "a"⟩, ⟨1, 2, "b"⟩] [] =
      [⟨0, 1, "a", "SPEAKER_00"⟩, ⟨1, 2, "b", "SPEAKER_00"⟩] := by decide
  refine ⟨heq, ?_⟩
  rw [heq]
  simp [List.chain'_cons]

/-- C5 (amended): whenever the diarization list is nonempty the merge
output contains no two consecutive segments with the same speaker
(consecutive same-speaker segments are collapsed); on the
empty-diarization path the segments are returned one-per-input without
collapsing. -/
theorem C5_no_consecutive_same_speaker (ws : List WSeg) (ds : List DSeg) (h : ds ≠ []) :
    List.Chain' (fun a b : MSeg => a.speaker ≠ b.speaker)
      (merge_transcript_with_speakers ws ds) := by
  cases ws with
  | nil => simp [merge_transcript_with_speakers]
  | cons w rest =>
    rw [merge_transcript_with_speakers]
    rw [if_neg h]
    exact merge_consecutive_segments_chain _

/-- Witness for C5's amended theorem at a concrete input. -/
theorem C5_no_consecutive_same_speaker_witness :
    ([⟨"SPEAKER_00", 0, 2⟩] : List DSeg) ≠ [] ∧
      List.Chain' (fun a b : MSeg => a.speaker ≠ b.speaker)
        (merge_transcript_with_speakers [⟨0, 1, "a"⟩, ⟨1, 2, "b"⟩] [⟨"SPEAKER_00", 0, 2⟩]) :=
  ⟨by decide, C5_no_consecutive_same_speaker [⟨0, 1, "a"⟩, ⟨1, 2, "b"⟩] [⟨"SPEAKER_00", 0, 2⟩]
    (by decide)⟩

theorem mem_of_lookup (l : List (String × ℚ)) (k : String) (v : ℚ)
    (h : l.lookup k = some v) : (k, v) ∈ l := by
  induction l with
  | nil => simp [List.lookup] at h
  | cons e rest ih =>
    obtain ⟨k', w⟩ := e
    by_cases hk : k = k'
    · subst hk
      simp [List.lookup] at h
      simp [h]
    · simp only [List.lookup, beq_false_of_ne hk] at h
      exact List.mem_cons_of_mem _ (ih h)

theorem speakerOverlaps_lookup (w : WSeg) (ds : List DSeg) (sp : String) :
    ((speakerOverlaps w.start w.stop ds).lookup sp).getD 0 = totalOverlap w sp ds := by
  rw [speakerOverlaps_eq_foldl, overlaps_fold_lookup]
  simp [List.lookup]

/-- C7: for a positive-duration ASR segment, the speaker returned by
`_find_best_speaker_for_segment` has maximal total overlap among all
speakers and that overlap is at least 50% of the segment duration;
`none` (mapped to `UNKNOWN` by the merge) is returned exactly when no
speaker reaches the 50% threshold; a zero- or negative-duration segment
always yields `none`. -/
theorem C7_best_speaker_characterization (w : WSeg) (ds : List DSeg) :
    (assignSpeaker w ds = (find_best_speaker_for_segment w ds).getD "UNKNOWN") ∧
    (w.stop - w.start ≤ 0 → find_best_speaker_for_segment w ds = none) ∧
    (0 < w.stop - w.start →
      (∀ sp, find_best_speaker_for_segment w ds = some sp →
        MIN_OVERLAP_THRESHOLD ≤ totalOverlap w sp ds / (w.stop - w.start) ∧
        ∀ sp', totalOverlap w sp' ds ≤ totalOverlap w sp ds) ∧
      (find_best_speaker_for_segment w ds = none →
        ∀ sp, totalOverlap w sp ds / (w.stop - w.start) < MIN_OVERLAP_THRESHOLD)) := by
  refine ⟨rfl, ?_, ?_⟩
  · intro hle
    rw [find_best_speaker_for_segment]
    rw [if_pos (by rw [rsub_eq]; exact hle)]
  · intro hpos
    have hdur : ¬ rsub w.stop w.start ≤ 0 := by rw [rsub_eq]; exact not_le.mpr hpos
    have hth : (0 : ℚ) < MIN_OVERLAP_THRESHOLD := by rw [MIN_OVERLAP_THRESHOLD]; norm_num
    rcases hS : speakerOverlaps w.start w.stop ds with _ | ⟨e, rest⟩
    · constructor
      · intro sp hsp
        rw [find_best_speaker_for_segment, if_neg hdur, hS] at hsp
        simp at hsp
      · intro _ sp
        have h0 : totalOverlap w sp ds = 0 := by
          rw [← speakerOverlaps_lookup, hS]
          simp [List.lookup]
        rw [h0, zero_div]
        exact hth
    · have hnodup : (((e :: rest) : List (String × ℚ)).map Prod.fst).Nodup := by
        rw [← hS, speakerOverlaps_eq_foldl]
        exact overlaps_fold_keys_nodup _ _ _ [] (by simp)
      have hposvals : ∀ p ∈ (e :: rest : List (String × ℚ)), 0 < p.2 := by
        rw [← hS, speakerOverlaps_eq_foldl]
        exact overlaps_fold_pos _ _ _ [] (by simp)
      set best := maxEntry e rest with hbest
      have hmem : best ∈ (e :: rest : List (String × ℚ)) := maxEntry_mem e rest
      have hb_lookup : ((e :: rest : List (String × ℚ)).lookup best.1) = some best.2 :=
        lookup_of_mem_nodup _ best hnodup hmem
      have hb_total : totalOverlap w best.1 ds = best.2 := by
        rw [← speakerOverlaps_lookup, hS, hb_lookup]
        rfl
      have hboundAll : ∀ sp', totalOverlap w sp' ds ≤ best.2 := by
        intro sp'
        rw [← speakerOverlaps_lookup, hS]
        rcases hl : ((e :: rest : List (String × ℚ)).lookup sp') with _ | v
        · simp only [Option.getD_none]
          exact le_of_lt (hposvals best hmem)
        · simp only [Option.getD_some]
          exact maxEntry_le e rest _ (mem_of_lookup _ _ _ hl)
      have hdiv_eq : rdiv best.2 (rsub w.stop w.start) = best.2 / (w.stop - w.start) := by
        rw [rdiv_eq, rsub_eq]
      have hred : find_best_speaker_for_segment w ds =
          if MIN_OVERLAP_THRESHOLD ≤ rdiv best.2 (rsub w.stop w.start) then some best.1
          else none := by
        rw [find_best_speaker_for_segment, if_neg hdur, hS]
      constructor
      · intro sp hsp
        rw [hred] at hsp
        by_cases hcmp : MIN_OVERLAP_THRESHOLD ≤ rdiv best.2 (rsub w.stop w.start)
        · rw [if_pos hcmp] at hsp
          have hspb : sp = best.1 := by
            simpa using hsp.symm
          subst hspb
          constructor
          · rw [hb_total]
            rw [hdiv_eq] at hcmp
            exact hcmp
          · intro sp'
            rw [hb_total]
            exact hboundAll sp'
        · rw [if_neg hcmp] at hsp
          simp at hsp
      · intro hnone sp
        rw [hred] at hnone
        by_cases hcmp : MIN_OVERLAP_THRESHOLD ≤ rdiv best.2 (rsub w.stop w.start)
        · rw [if_pos hcmp] at hnone
          simp at hnone
        · rw [hdiv_eq] at hcmp
          have hlt : best.2 / (w.stop - w.start) < MIN_OVERLAP_THRESHOLD := not_le.mp hcmp
          calc totalOverlap w sp ds / (w.stop - w.start)
              ≤ best.2 / (w.stop - w.start) :=
                div_le_div_of_nonneg_right (hboundAll sp) hpos.le
            _ < MIN_OVERLAP_THRESHOLD := hlt

/-- Witness for C7 at a concrete input: a 4-second segment with 3
seconds of `SPEAKER_01` overlap is assigned `SPEAKER_01`, whose overlap
is maximal and at least half the duration. -/
theorem C7_best_speaker_characterization_witness :
    (0 : ℚ) < (4 : ℚ) - 0 ∧
      find_best_speaker_for_segment ⟨0, 4, "hi"⟩
        [⟨"SPEAKER_01", 0, 3⟩, ⟨"SPEAKER_00", 3, 4⟩] = some "SPEAKER_01" ∧
      (MIN_OVERLAP_THRESHOLD ≤
          totalOverlap ⟨0, 4, "hi"⟩ "SPEAKER_01" [⟨"SPEAKER_01", 0, 3⟩, ⟨"SPEAKER_00", 3, 4⟩] /
            ((4 : ℚ) - 0) ∧
        ∀ sp', totalOverlap ⟨0, 4, "hi"⟩ sp' [⟨"SPEAKER_01", 0, 3⟩, ⟨"SPEAKER_00", 3, 4⟩] ≤
          totalOverlap ⟨0, 4, "hi"⟩ "SPEAKER_01" [⟨"SPEAKER_01", 0, 3⟩, ⟨"SPEAKER_00", 3, 4⟩]) :=
  have hfind : find_best_speaker_for_segment ⟨0, 4, "hi"⟩
      [⟨"SPEAKER_01", 0, 3⟩, ⟨"SPEAKER_00", 3, 4⟩] = some "SPEAKER_01" := by decide
  ⟨by norm_num, hfind,
    ((C7_best_speaker_characterization ⟨0, 4, "hi"⟩
        [⟨"SPEAKER_01", 0, 3⟩, ⟨"SPEAKER_00", 3, 4⟩]).2.2 (by norm_num)).1
      "SPEAKER_01" hfind⟩

/-! ## Claims about the provider router (C4) -/

/-- Spec-level reading of the auto-detection table: the first
prefix/substring match whose credential is configured wins. -/
def firstConfiguredHint (env : String → Bool) (modelLower : String)
    (hints : List (String × String)) : Option ProviderConfig :=
  hints.findSome? (fun h =>
    if substrOf h.1 modelLower then
      match PROVIDERS.lookup h.2 with
      | some p => if isConfigured env p then some p else none
      | none => none
    else none)

theorem scanHints_eq_firstConfigured (env : String → Bool) (modelLower : String)
    (hints : List (String × String)) :
    scanHints env modelLower hints = firstConfiguredHint env modelLower hints := by
  induction hints with
  | nil => rfl
  | cons h rest ih =>
    obtain ⟨hint, providerName⟩ := h
    rw [scanHints, firstConfiguredHint, List.findSome?]
    by_cases hsub : substrOf hint modelLower
    · rw [if_pos hsub, if_pos hsub]
      rcases hlk : PROVIDERS.lookup providerName with _ | p
      · simpa [hlk] using ih
      · by_cases hc : isConfigured env p
        · simp [hlk, hc]
        · simpa [hlk, hc] using ih
    · simp only [Bool.not_eq_true] at hsub
      rw [if_neg (by simp [hsub]), if_neg (by simp [hsub])]
      exact ih

/-- C4 counterexample: with only `DEEPSEEK_API_KEY` configured, naming
the explicit provider `openai` for model `deepseek-chat` raises a
`ValueError` instead of falling through to auto-detection — which,
absent the explicit provider, would have resolved to deepseek. -/
theorem C4_counterexample :
    resolve_provider (fun v => v == "DEEPSEEK_API_KEY") "deepseek-chat" (some "openai") =
      .error "Provider 'openai' selected but OPENAI_API_KEY is not set" ∧
    resolve_provider (fun v => v == "DEEPSEEK_API_KEY") "deepseek-chat" none =
      .ok ⟨"deepseek", "https://api.deepseek.com/v1", "DEEPSEEK_API_KEY"⟩ := by
  constructor
  · decide
  · decide

/-- C4 (amended): an explicit provider present in the registry is chosen
when configured and raises an error when not (no fall-through); an
explicit provider absent from the registry (or empty) falls through to
auto-detection; auto-detection takes the first substring-table match
whose credential is configured, then openrouter if configured, then
deepseek if configured, and otherwise errors. -/
theorem C4_resolution_order (env : String → Bool) (model : String) :
    (∀ p cfg, PROVIDERS.lookup p = some cfg → p ≠ "" →
      (isConfigured env cfg = true → resolve_provider env model (some p) = .ok cfg) ∧
      (isConfigured env cfg = false →
        resolve_provider env model (some p) =
          .error ("Provider '" ++ p ++ "' selected but " ++ cfg.api_key_env ++
            " is not set"))) ∧
    (∀ p, PROVIDERS.lookup p = none →
      resolve_provider env model (some p) = resolve_provider env model none) ∧
    (resolve_provider env model (some "") = resolve_provider env model none) ∧
    (resolve_provider env model none =
      match firstConfiguredHint env (strLower model) MODEL_PROVIDER_HINTS with
      | some cfg => .ok cfg
      | none =>
        if env "OPENROUTER_API_KEY" then
          .ok ⟨"openrouter", "https://openrouter.ai/api/v1", "OPENROUTER_API_KEY"⟩
        else if env "DEEPSEEK_API_KEY" then
          .ok ⟨"deepseek", "https://api.deepseek.com/v1", "DEEPSEEK_API_KEY"⟩
        else .error ("No configured provider found for model '" ++ model ++ "'")) := by
  have hnone : resolve_provider env model none =
      match firstConfiguredHint env (strLower model) MODEL_PROVIDER_HINTS with
      | some cfg => .ok cfg
      | none =>
        if env "OPENROUTER_API_KEY" then
          .ok ⟨"openrouter", "https://openrouter.ai/api/v1", "OPENROUTER_API_KEY"⟩
        else if env "DEEPSEEK_API_KEY" then
          .ok ⟨"deepseek", "https://api.deepseek.com/v1", "DEEPSEEK_API_KEY"⟩
        else .error ("No configured provider found for model '" ++ model ++ "'") := by
    rw [resolve_provider]
    rw [← scanHints_eq_firstConfigured]
    rcases hscan : scanHints env (strLower model) MODEL_PROVIDER_HINTS with _ | cfg
    · simp only [hscan]
      rfl
    · simp only [hscan]
  refine ⟨?_, ?_, ?_, hnone⟩
  · intro p cfg hlk hne
    constructor
    · intro hc
      rw [resolve_provider]
      simp only [if_pos hne, hlk, hc]
      rfl
    · intro hc
      rw [resolve_provider]
      simp only [if_pos hne, hlk, hc]
      rfl
  · intro p hlk
    rw [resolve_provider, resolve_provider]
    by_cases hne : p = ""
    · subst hne
      rfl
    · simp only [if_pos hne, hlk]
  · rw [resolve_provider, resolve_provider]
    rfl

/-- Witness for C4's amended theorem at a concrete environment: a
configured explicit `openai` provider is chosen, and an unknown explicit
provider tag falls through to auto-detection. -/
theorem C4_resolution_order_witness :
    PROVIDERS.lookup "openai" =
        some ⟨"openai", "https://api.openai.com/v1", "OPENAI_API_KEY"⟩ ∧
      ("openai" : String) ≠ "" ∧
      isConfigured (fun v => v == "OPENAI_API_KEY")
        ⟨"openai", "https://api.openai.com/v1", "OPENAI_API_KEY"⟩ = true ∧
      resolve_provider (fun v => v == "OPENAI_API_KEY") "mystery-model" (some "openai") =
        .ok ⟨"openai", "https://api.openai.com/v1", "OPENAI_API_KEY"⟩ :=
  ⟨by decide, by decide, by decide,
    (((C4_resolution_order (fun v => v == "OPENAI_API_KEY") "mystery-model").1 "openai"
        ⟨"openai", "https://api.openai.com/v1", "OPENAI_API_KEY"⟩ (by decide) (by decide)).1
      (by decide))⟩

/-! ## Claims about the queue (C1, C2) -/

theorem get_next_job_none_iff (jobs : List Job) :
    get_next_job jobs = none ↔ ∀ j ∈ jobs, j.status ≠ .QUEUED := by
  rw [get_next_job]
  rw [List.head?_eq_none_iff]
  constructor
  · intro h j hj hq
    have : j ∈ (jobs.filter (fun j => j.status == .QUEUED)).insertionSort
        (fun a b => a.created_at ≤ b.created_at) := by
      rw [List.Perm.mem_iff (List.perm_insertionSort _ _)]
      exact List.mem_filter.mpr ⟨hj, by simp [hq]⟩
    simp [h] at this
  · intro h
    rcases hs : (jobs.filter (fun j => j.status == .QUEUED)).insertionSort
        (fun a b => a.created_at ≤ b.created_at) with _ | ⟨j, t⟩
    · exact hs
    · exfalso
      have hj : j ∈ jobs.filter (fun j => j.status == .QUEUED) := by
        rw [← List.Perm.mem_iff (List.perm_insertionSort
          (fun a b : Job => a.created_at ≤ b.created_at)
          (jobs.filter (fun j => j.status == .QUEUED)))]
        rw [hs]
        simp
      have := List.mem_filter.mp hj
      exact h j this.1 (by simpa using this.2)

theorem get_next_job_some (jobs : List Job) (j : Job) (h : get_next_job jobs = some j) :
    j ∈ jobs ∧ j.status = .QUEUED ∧
      ∀ j' ∈ jobs, j'.status = .QUEUED → j.created_at ≤ j'.created_at := by
  haveI : IsTotal Job (fun a b => a.created_at ≤ b.created_at) := ⟨fun a b => le_total _ _⟩
  haveI : IsTrans Job (fun a b => a.created_at ≤ b.created_at) :=
    ⟨fun _ _ _ hab hbc => le_trans hab hbc⟩
  rw [get_next_job] at h
  rcases hs : (jobs.filter (fun j => j.status == .QUEUED)).insertionSort
      (fun a b => a.created_at ≤ b.created_at) with _ | ⟨x, t⟩
  · rw [hs] at h
    simp at h
  · rw [hs] at h
    simp only [List.head?_cons, Option.some.injEq] at h
    subst h
    have hsorted := List.sorted_insertionSort
      (fun a b : Job => a.created_at ≤ b.created_at)
      (jobs.filter (fun j => j.status == .QUEUED))
    rw [hs, List.sorted_cons] at hsorted
    have hmem : x ∈ jobs.filter (fun j => j.status == .QUEUED) := by
      rw [← List.Perm.mem_iff (List.perm_insertionSort
        (fun a b : Job => a.created_at ≤ b.created_at)
        (jobs.filter (fun j => j.status == .QUEUED))), hs]
      simp
    have hj := List.mem_filter.mp hmem
    refine ⟨hj.1, by simpa using hj.2, ?_⟩
    intro j' hj' hq'
    have hmem' : j' ∈ (jobs.filter (fun j => j.status == .QUEUED)).insertionSort
        (fun a b => a.created_at ≤ b.created_at) := by
      rw [List.Perm.mem_iff (List.perm_insertionSort _ _)]
      exact List.mem_filter.mpr ⟨hj', by simp [hq']⟩
    rw [hs] at hmem'
    rcases List.mem_cons.mp hmem' with hx | hx
    · subst hx
      exact le_refl _
    · exact hsorted.1 j' hx

/-- C1 counterexample: two QUEUED jobs, one with priority 5 created at
tick 1 and one with priority 1 created at tick 2.  `get_next_job`
returns the older job even though the other has the numerically lower
(higher-urgency) priority, and the returned job is still QUEUED — no
transition to PROCESSING happens as part of the claim. -/
theorem C1_counterexample :
    get_next_job
        [{ id := "a", profile_id := "", filename := "a.mp3", status := .QUEUED,
           created_at := 1, priority := 5 },
         { id := "b", profile_id := "", filename := "b.mp3", status := .QUEUED,
           created_at := 2, priority := 1 }] =
      some { id := "a", profile_id := "", filename := "a.mp3", status := .QUEUED,
             created_at := 1, priority := 5 } ∧
    ({ id := "b", profile_id := "", filename := "b.mp3", status := .QUEUED,
       created_at := 2, priority := 1 } : Job).priority <
      ({ id := "a", profile_id := "", filename := "a.mp3", status := .QUEUED,
         created_at := 1, priority := 5 } : Job).priority ∧
    (get_next_job
        [{ id := "a", profile_id := "", filename := "a.mp3", status := .QUEUED,
           created_at := 1, priority := 5 },
         { id := "b", profile_id := "", filename := "b.mp3", status := .QUEUED,
           created_at := 2, priority := 1 }]).map (fun j => j.status) =
      some .QUEUED := by
  refine ⟨by decide, by decide, by decide⟩

/-- C1 (amended): `get_next_job` returns none exactly when no QUEUED job
exists, and otherwise returns a QUEUED job with minimal `created_at`
among the QUEUED jobs — priority is ignored, and no status transition is
performed by the query; the PROCESSING transition happens separately
inside `process_job`. -/
theorem C1_claim_order (jobs : List Job) :
    (get_next_job jobs = none ↔ ∀ j ∈ jobs, j.status ≠ .QUEUED) ∧
    (∀ j, get_next_job jobs = some j →
      j ∈ jobs ∧ j.status = .QUEUED ∧
        ∀ j' ∈ jobs, j'.status = .QUEUED → j.created_at ≤ j'.created_at) :=
  ⟨get_next_job_none_iff jobs, fun j h => get_next_job_some jobs j h⟩

/-- Witness for C1's amended theorem on a concrete two-job queue. -/
theorem C1_claim_order_witness :
    get_next_job
        [{ id := "a", profile_id := "", filename := "a.mp3", status := .QUEUED,
           created_at := 7, priority := 5 },
         { id := "b", profile_id := "", filename := "b.mp3", status := .QUEUED,
           created_at := 3, priority := 9 }] =
      some { id := "b", profile_id := "", filename := "b.mp3", status := .QUEUED,
             created_at := 3, priority := 9 } ∧
    ({ id := "b", profile_id := "", filename := "b.mp3", status := .QUEUED,
       created_at := 3, priority := 9 } : Job) ∈
        ([{ id := "a", profile_id := "", filename := "a.mp3", status := .QUEUED,
            created_at := 7, priority := 5 },
          { id := "b", profile_id := "", filename := "b.mp3", status := .QUEUED,
            created_at := 3, priority := 9 }] : List Job) ∧
    ({ id := "b", profile_id := "", filename := "b.mp3", status := .QUEUED,
       created_at := 3, priority := 9 } : Job).status = .QUEUED ∧
    ∀ j' ∈ ([{ id := "a", profile_id := "", filename := "a.mp3", status := .QUEUED,
               created_at := 7, priority := 5 },
             { id := "b", profile_id := "", filename := "b.mp3", status := .QUEUED,
               created_at := 3, priority := 9 }] : List Job),
      j'.status = .QUEUED →
        ({ id := "b", profile_id := "", filename := "b.mp3", status := .QUEUED,
           created_at := 3, priority := 9 } : Job).created_at ≤ j'.created_at := by
  have h := (C1_claim_order
    [{ id := "a", profile_id := "", filename := "a.mp3", status := .QUEUED,
       created_at := 7, priority := 5 },
     { id := "b", profile_id := "", filename := "b.mp3", status := .QUEUED,
       created_at := 3, priority := 9 }]).2
    { id := "b", profile_id := "", filename := "b.mp3", status := .QUEUED,
      created_at := 3, priority := 9 } (by decide)
  exact ⟨by decide, h.1, h.2.1, h.2.2⟩

theorem updateJob_mem_of_ne (s : EngineState) (id : String) (f : Job → Job) (j : Job)
    (hj : j ∈ s.jobs) (hne : j.id ≠ id) : j ∈ (updateJob s id f).jobs := by
  rw [updateJob]
  exact List.mem_map.mpr ⟨j, hj, by simp [hne]⟩

theorem record_stage_jobs_frame (s : EngineState) (jobId stageId : String)
    (status : StageStatus) (u : StageUpdate) (j : Job) (hj : j ∈ s.jobs)
    (hne : j.id ≠ jobId) : j ∈ (record_stage s jobId stageId status u).jobs := by
  rw [record_stage]
  exact updateJob_mem_of_ne _ _ _ j hj hne

theorem exec_stage_jobs_frame (cfg : WorldConfig) (jobId : String) (stage : Stage)
    (ci : String) (prev : List (String × String)) (s : EngineState) (j : Job)
    (hj : j ∈ s.jobs) (hne : j.id ≠ jobId) :
    j ∈ (exec_stage cfg jobId stage ci prev s).1.jobs := by
  rw [exec_stage]
  cases resolve_provider cfg.env stage.model stage.provider with
  | error e =>
    dsimp only
    exact record_stage_jobs_frame _ _ _ _ _ j
      (record_stage_jobs_frame _ _ _ _ _ j hj hne) hne
  | ok pc =>
    dsimp only
    cases cfg.llm stage.name (build_prompt stage.prompt_template ci prev) with
    | error e =>
      dsimp only
      exact record_stage_jobs_frame _ _ _ _ _ j
        (record_stage_jobs_frame _ _ _ _ _ j hj hne) hne
    | ok r =>
      obtain ⟨o, it, ot⟩ := r
      dsimp only
      exact record_stage_jobs_frame _ jobId stage.name .COMPLETE
        { model_used := some stage.model, input_tokens := some it, output_tokens := some ot,
          cost_estimate := some (estimate_cost stage.model it ot),
          output_path := some (jobDataDir jobId ++ "/stage_" ++ stage.name ++ ".txt") } j
        (record_stage_jobs_frame s jobId stage.name .RUNNING { model_used := some stage.model }
          j hj hne) hne

theorem run_stages_jobs_frame (cfg : WorldConfig) (jobId : String) (stages : List Stage)
    (j : Job) (hne : j.id ≠ jobId) :
    ∀ (s : EngineState) (ci : String) (prev : List (String × String)) (tc : ℚ),
      j ∈ s.jobs → j ∈ (run_stages cfg jobId stages s ci prev tc).1.jobs := by
  induction stages with
  | nil => intro s ci prev tc hj; exact hj
  | cons stage rest ih =>
    intro s ci prev tc hj
    rw [run_stages]
    rcases hcc : (match get_stage_result s jobId stage.name with
      | some cached =>
        match cached.output_path with
        | some p => if fsExists s.fs p then some (readText s.fs p, cached.cost_estimate) else none
        | none => none
      | none => none : Option (String × ℚ)) with _ | ⟨content, cost⟩
    · rcases hex : exec_stage cfg jobId stage ci prev s with ⟨s', r⟩
      rcases r with e | ⟨o, c⟩
      · have := exec_stage_jobs_frame cfg jobId stage ci prev s j hj hne
        rw [hex] at this
        exact this
      · have := exec_stage_jobs_frame cfg jobId stage ci prev s j hj hne
        rw [hex] at this
        exact ih _ _ _ _ this
    · exact ih _ _ _ _ hj

theorem generate_outputs_jobs (s : EngineState) (f n fn : String) :
    (generate_outputs s f n fn).1.jobs = s.jobs := by
  rw [generate_outputs]
  cases hmd : ["meeting", "supervision", "client", "braindump"].contains n <;>
    cases hdx : ["meeting", "supervision", "client", "lecture"].contains n <;>
      simp [hmd, hdx]

theorem generate_multi_stage_output_jobs (s : EngineState) (c fb sfx : String) :
    (generate_multi_stage_output s c fb sfx).1.jobs = s.jobs := rfl

theorem diarization_step_jobs_frame (cfg : WorldConfig) (s : EngineState)
    (jobId : String) (d : ℚ) (j : Job) (hj : j ∈ s.jobs) (hne : j.id ≠ jobId) :
    j ∈ (diarization_step cfg s jobId d).1.jobs := by
  rw [diarization_step]
  split
  · cases cfg.diarize with
    | ok segs =>
      exact record_stage_jobs_frame _ _ _ _ _ j
        (record_stage_jobs_frame _ _ _ _ _ j hj hne) hne
    | error e =>
      exact record_stage_jobs_frame _ _ _ _ _ j
        (record_stage_jobs_frame _ _ _ _ _ j hj hne) hne
  · exact hj

theorem formatting_step_jobs_frame (cfg : WorldConfig) (s : EngineState)
    (jobId : String) (t nt : String) (j : Job) (hj : j ∈ s.jobs) (hne : j.id ≠ jobId) :
    j ∈ (formatting_step cfg s jobId t nt).1.jobs := by
  rw [formatting_step]
  split
  · exact record_stage_jobs_frame _ _ _ _ _ j
      (record_stage_jobs_frame _ _ _ _ _ j hj hne) hne
  · exact record_stage_jobs_frame _ _ _ _ _ j hj hne

theorem process_standard_jobs_frame (cfg : WorldConfig) (s : EngineState) (job : Job)
    (ap : String) (td : TranscriptData) (nt : String) (j : Job) (hj : j ∈ s.jobs)
    (hne : j.id ≠ job.id) : j ∈ (process_standard cfg s job ap td nt).1.jobs := by
  rw [process_standard]
  rcases hd : diarization_step cfg s job.id td.duration with ⟨s1, dsegs⟩
  dsimp only
  rcases hf : formatting_step cfg s1 job.id
      (build_speaker_transcript (merge_transcript_with_speakers td.segments dsegs)) nt with
    ⟨s3, ftext⟩
  dsimp only
  rcases hg : generate_outputs (record_stage s3 job.id "output" .RUNNING {}) ftext nt
      (stem ap) with ⟨s5, outs⟩
  dsimp only
  have h1 : j ∈ s1.jobs := by
    have h := diarization_step_jobs_frame cfg s job.id td.duration j hj hne
    rw [hd] at h
    exact h
  have h3 : j ∈ s3.jobs := by
    have h := formatting_step_jobs_frame cfg s1 job.id
      (build_speaker_transcript (merge_transcript_with_speakers td.segments dsegs)) nt
      j h1 hne
    rw [hf] at h
    exact h
  have h5 : j ∈ s5.jobs := by
    have h4 : j ∈ (record_stage s3 job.id "output" .RUNNING {}).jobs :=
      record_stage_jobs_frame _ _ _ _ _ j h3 hne
    have hjobs := generate_outputs_jobs (record_stage s3 job.id "output" .RUNNING {})
      ftext nt (stem ap)
    rw [hg] at hjobs
    exact hjobs ▸ h4
  exact record_stage_jobs_frame _ _ _ _ _ j h5 hne

theorem getJob_id (s : EngineState) (id : String) (job : Job)
    (h : getJob s id = some job) : job.id = id := by
  rw [getJob] at h
  have hp := List.find?_some h
  simpa using hp

theorem output_fold_jobs (ap : String) (l : List (Stage × String)) :
    ∀ acc : EngineState × List String,
      (l.foldl (output_fold_step ap) acc).1.jobs = acc.1.jobs := by
  induction l with
  | nil => intro acc; rfl
  | cons p rest ih =>
    intro acc
    rw [List.foldl_cons, ih]
    rfl

theorem process_with_profile_jobs_frame (cfg : WorldConfig) (s : EngineState) (job : Job)
    (ap : String) (td : TranscriptData) (profile : Profile) (j : Job) (hj : j ∈ s.jobs)
    (hne : j.id ≠ job.id) : j ∈ (process_with_profile cfg s job ap td profile).1.jobs := by
  rw [process_with_profile]
  rcases hr : run_stages cfg job.id profile.stages s (build_raw_transcript td.segments) [] 0
    with ⟨s1, r⟩
  have h1 : j ∈ s1.jobs := by
    have h := run_stages_jobs_frame cfg job.id profile.stages j hne s
      (build_raw_transcript td.segments) [] 0 hj
    rw [hr] at h
    exact h
  cases r with
  | error e => exact h1
  | ok v =>
    obtain ⟨ci, prev, tc⟩ := v
    dsimp only
    refine record_stage_jobs_frame _ _ _ _ _ j ?_ hne
    rw [output_fold_jobs]
    exact record_stage_jobs_frame _ _ _ _ _ j
      (updateJob_mem_of_ne _ _ _ j h1 hne) hne

theorem safe_archive_jobs (s : EngineState) (ap : String) :
    (safe_archive s ap).jobs = s.jobs := by
  rw [safe_archive]
  cases s.fs.lookup ap <;> rfl

theorem transcription_step_jobs_frame (cfg : WorldConfig) (s : EngineState) (job : Job)
    (j : Job) (hj : j ∈ s.jobs) (hne : j.id ≠ job.id) :
    j ∈ (transcription_step cfg s job).1.jobs := by
  rw [transcription_step]
  cases cached_transcript s job.id with
  | some t => exact hj
  | none =>
    dsimp only
    split
    · cases cfg.transcribe with
      | ok td =>
        dsimp only
        exact record_stage_jobs_frame _ job.id "transcription" .COMPLETE
          { output_path := some (jobDataDir job.id ++ "/transcription.json") } j
          (record_stage_jobs_frame s job.id "transcription" .RUNNING {} j hj hne) hne
      | error e => exact record_stage_jobs_frame _ _ _ _ _ j hj hne
    · exact record_stage_jobs_frame _ _ _ _ _ j hj hne

theorem dispatch_step_jobs_frame (cfg : WorldConfig) (s : EngineState) (job : Job)
    (fp : String) (td : TranscriptData) (j : Job) (hj : j ∈ s.jobs)
    (hne : j.id ≠ job.id) : j ∈ (dispatch_step cfg s job fp td).1.jobs := by
  rw [dispatch_step]
  cases (if job.profile_id != "" then cfg.profiles.find? (fun p => p.id == job.profile_id)
      else none) with
  | some profile => exact process_with_profile_jobs_frame cfg s job fp td profile j hj hne
  | none =>
    dsimp only
    exact process_standard_jobs_frame cfg s job fp td _ j hj hne

theorem run_job_jobs_frame (cfg : WorldConfig) (s : EngineState) (job : Job) (j : Job)
    (hj : j ∈ s.jobs) (hne : j.id ≠ job.id) : j ∈ (run_job cfg s job).1.jobs := by
  rw [run_job]
  cases locate_source s job with
  | none => exact hj
  | some fp =>
    dsimp only
    rcases ht : transcription_step cfg s job with ⟨sT, rT⟩
    have hT : j ∈ sT.jobs := by
      have h := transcription_step_jobs_frame cfg s job j hj hne
      rw [ht] at h
      exact h
    cases rT with
    | error e => exact hT
    | ok td =>
      dsimp only
      rcases hdp : dispatch_step cfg sT job fp td with ⟨sD, rD⟩
      have hD : j ∈ sD.jobs := by
        have h := dispatch_step_jobs_frame cfg sT job fp td j hT hne
        rw [hdp] at h
        exact h
      cases rD with
      | error e => exact hD
      | ok outs =>
        dsimp only
        rw [safe_archive_jobs]
        exact hD

theorem process_job_jobs_frame (cfg : WorldConfig) (s : EngineState) (id : String)
    (j : Job) (hj : j ∈ s.jobs) (hne : j.id ≠ id) :
    j ∈ (process_job cfg s id).jobs := by
  rw [process_job]
  cases hg : getJob s id with
  | none => exact hj
  | some job =>
    dsimp only
    have h1 : j ∈ (updateJob s id (fun j => { j with status := .PROCESSING })).jobs :=
      updateJob_mem_of_ne s id _ j hj hne
    rcases hrj : run_job cfg (updateJob s id (fun j => { j with status := .PROCESSING })) job
      with ⟨s2, r⟩
    have h2 : j ∈ s2.jobs := by
      have h := run_job_jobs_frame cfg
        (updateJob s id (fun j => { j with status := .PROCESSING })) job j h1 ?_
      · rw [hrj] at h
        exact h
      · have := getJob_id s id job hg
        rw [this]
        exact hne
    cases r with
    | ok u => exact updateJob_mem_of_ne _ _ _ j h2 hne
    | error e =>
      dsimp only
      have h3 : j ∈ (updateJob s2 id
          (fun j => { j with status := .FAILED, error := some e })).jobs :=
        updateJob_mem_of_ne _ _ _ j h2 hne
      cases (updateJob s2 id
          (fun j => { j with status := .FAILED, error := some e })).fs.lookup job.filename with
      | some d => exact h3
      | none => exact h3

/-! ## Claim C2 -/

/-- Concrete configuration for C2's counterexample: ASR succeeds, no
diarizer, no formatter, no profiles. -/
def c2Cfg : WorldConfig :=
  { env := fun _ => false, groq := true, diarizer := false, formatter := false,
    transcribe := .ok ⟨[⟨0, 2, "hello"⟩], "hello", 2⟩ }

/-- Concrete store for C2's counterexample: one CANCELLED job whose
source file exists. -/
def c2State : EngineState :=
  { jobs := [{ id := "j1", profile_id := "", filename := "inbox/a.mp3",
               status := .CANCELLED }],
    stages := [], fs := [("inbox/a.mp3", .media)] }

/-- C2 counterexample: `process_job` performs no terminal-status guard —
invoked on the id of a CANCELLED job it overwrites the terminal status
(here all the way to COMPLETE). -/
theorem C2_counterexample :
    (getJob c2State "j1").map (fun j => j.status) = some .CANCELLED ∧
    (getJob (process_job c2Cfg c2State "j1") "j1").map (fun j => j.status) =
      some .COMPLETE := by
  constructor
  · decide
  · decide

/-- C2 (amended): the worker loop only claims QUEUED jobs, so a job row
that no QUEUED job shares an id with — in particular a terminal
(COMPLETE/FAILED/CANCELLED) job under unique ids — survives a worker
iteration entirely unchanged; `process_job` itself has no guard and
overwrites the status when invoked directly with a terminal job's id. -/
theorem C2_terminal_preserved_by_worker_step (cfg : WorldConfig) (s : EngineState) (j : Job)
    (hj : j ∈ s.jobs)
    (_hterm : j.status = .COMPLETE ∨ j.status = .FAILED ∨ j.status = .CANCELLED)
    (hid : ∀ j2 ∈ s.jobs, j2.status = .QUEUED → j2.id ≠ j.id) :
    j ∈ (worker_step cfg s).jobs := by
  rw [worker_step]
  cases hn : get_next_job s.jobs with
  | none => exact hj
  | some jq =>
    obtain ⟨hqmem, hqstat, _⟩ := get_next_job_some s.jobs jq hn
    exact process_job_jobs_frame cfg s jq.id j hj
      (fun hc => hid jq hqmem hqstat (by rw [hc]))

/-- Witness for C2's amended theorem: a COMPLETE job next to a QUEUED
job with a different id survives the worker iteration. -/
theorem C2_terminal_preserved_by_worker_step_witness :
    ({ id := "done", profile_id := "", filename := "inbox/b.mp3",
       status := .COMPLETE } : Job) ∈
      (worker_step c2Cfg
        { jobs := [{ id := "done", profile_id := "", filename := "inbox/b.mp3",
                     status := .COMPLETE },
                   { id := "j9", profile_id := "", filename := "inbox/c.mp3",
                     status := .QUEUED }],
          stages := [], fs := [("inbox/c.mp3", .media)] }).jobs :=
  C2_terminal_preserved_by_worker_step c2Cfg
    { jobs := [{ id := "done", profile_id := "", filename := "inbox/b.mp3",
                 status := .COMPLETE },
               { id := "j9", profile_id := "", filename := "inbox/c.mp3",
                 status := .QUEUED }],
      stages := [], fs := [("inbox/c.mp3", .media)] }
    { id := "done", profile_id := "", filename := "inbox/b.mp3", status := .COMPLETE }
    (by decide) (by decide) (by decide)

/-! ## Stage-row tracking lemmas -/

theorem find?_updateFirst_self (p : α → Bool) (f : α → α)
    (hp : ∀ x, p x = true → p (f x) = true) :
    ∀ (l : List α) (x : α), l.find? p = some x →
      (updateFirst p f l).find? p = some (f x) := by
  intro l
  induction l with
  | nil => intro x hx; simp [List.find?] at hx
  | cons y ys ih =>
    intro x hx
    by_cases hy : p y = true
    · rw [List.find?_cons_of_pos _ hy] at hx
      cases hx
      rw [updateFirst, if_pos hy]
      exact List.find?_cons_of_pos _ (hp _ hy)
    · rw [List.find?_cons_of_neg _ (by simpa using hy)] at hx
      rw [updateFirst, if_neg hy]
      rw [List.find?_cons_of_neg _ (by simpa using hy)]
      exact ih x hx

theorem find?_updateFirst_other (p q : α → Bool) (f : α → α)
    (hdisj : ∀ x, p x = true → q x = false)
    (hpres : ∀ x, p x = true → q (f x) = false) :
    ∀ l : List α, (updateFirst p f l).find? q = l.find? q := by
  intro l
  induction l with
  | nil => rfl
  | cons y ys ih =>
    by_cases hy : p y = true
    · rw [updateFirst, if_pos hy]
      rw [List.find?_cons_of_neg _ (by simp [hpres y hy])]
      rw [List.find?_cons_of_neg _ (by simp [hdisj y hy])]
    · rw [updateFirst, if_neg hy]
      by_cases hq : q y = true
      · rw [List.find?_cons_of_pos _ hq, List.find?_cons_of_pos _ hq]
      · rw [List.find?_cons_of_neg _ (by simpa using hq),
          List.find?_cons_of_neg _ (by simpa using hq)]
        exact ih

theorem find?_append_single (q : α → Bool) (x : α) (hq : q x = false) :
    ∀ l : List α, (l ++ [x]).find? q = l.find? q := by
  intro l
  induction l with
  | nil => simp [List.find?, hq]
  | cons y ys ih =>
    by_cases hy : q y = true
    · rw [List.cons_append, List.find?_cons_of_pos _ hy, List.find?_cons_of_pos _ hy]
    · rw [List.cons_append, List.find?_cons_of_neg _ (by simpa using hy),
        List.find?_cons_of_neg _ (by simpa using hy)]
      exact ih

theorem find?_append_single_none (p : α → Bool) (x : α) (hp : p x = true) :
    ∀ l : List α, l.find? p = none → (l ++ [x]).find? p = some x := by
  intro l
  induction l with
  | nil => intro _; simp [List.find?, hp]
  | cons y ys ih =>
    intro h
    by_cases hy : p y = true
    · rw [List.find?_cons_of_pos _ hy] at h
      cases h
    · rw [List.find?_cons_of_neg _ (by simpa using hy)] at h
      rw [List.cons_append, List.find?_cons_of_neg _ (by simpa using hy)]
      exact ih h

/-- The row writer of `record_stage` preserves the row's key. -/
theorem rowMatch_write (jobId stageId : String) (status : StageStatus) (u : StageUpdate)
    (n : ℕ) (r : StageResult) :
    rowMatch jobId stageId (applyUpdate u
      (match status with
       | .RUNNING => { r with status := status, started_at := some n }
       | .COMPLETE => { r with status := status, completed_at := some n }
       | _ => { r with status := status })) = rowMatch jobId stageId r := by
  cases status <;> simp [rowMatch, applyUpdate]

/-- After `record_stage`, the `(jobId, stageId)` row exists, has the
written status, and carries any error provided in the update. -/
theorem record_stage_row_self (s : EngineState) (jobId stageId : String)
    (status : StageStatus) (u : StageUpdate) :
    ∃ r, (record_stage s jobId stageId status u).stages.find? (rowMatch jobId stageId) =
        some r ∧
      r.status = status ∧ (∀ v, u.error = some v → r.error = some v) ∧
      (∀ v, u.cost_estimate = some v → r.cost_estimate = v) := by
  rw [record_stage]
  rcases hfind : s.stages.find? (rowMatch jobId stageId) with _ | old
  · simp only [hfind, Option.isSome_none, Bool.false_eq_true, if_false]
    refine ⟨_, find?_append_single_none _ _ ?_ _ hfind, ?_, ?_, ?_⟩
    · cases status <;> simp [rowMatch, applyUpdate]
    · cases status <;> simp [applyUpdate]
    · intro v hv
      cases status <;> simp [applyUpdate, hv]
    · intro v hv
      cases status <;> simp [applyUpdate, hv]
  · simp only [hfind, Option.isSome_some, if_true]
    refine ⟨_, find?_updateFirst_self _ _ ?_ s.stages old hfind, ?_, ?_, ?_⟩
    · intro x hx
      rw [rowMatch_write]
      exact hx
    · cases status <;> simp [applyUpdate]
    · intro v hv
      cases status <;> simp [applyUpdate, hv]
    · intro v hv
      cases status <;> simp [applyUpdate, hv]

/-- `record_stage` for one stage leaves every row of a different key
untouched. -/
theorem record_stage_row_other (s : EngineState) (jobId stageId : String)
    (status : StageStatus) (u : StageUpdate) (jobId' stageId' : String)
    (hne : jobId' ≠ jobId ∨ stageId' ≠ stageId) :
    (record_stage s jobId stageId status u).stages.find? (rowMatch jobId' stageId') =
      s.stages.find? (rowMatch jobId' stageId') := by
  have hdisj : ∀ x : StageResult, rowMatch jobId stageId x = true →
      rowMatch jobId' stageId' x = false := by
    intro x hx
    simp only [rowMatch, Bool.and_eq_true, beq_iff_eq] at hx
    rcases hne with h | h
    · simp [rowMatch, hx.1, hx.2, Ne.symm h]
    · simp [rowMatch, hx.1, hx.2, Ne.symm h]
  rw [record_stage]
  rcases hfind : s.stages.find? (rowMatch jobId stageId) with _ | old
  · simp only [hfind, Option.isSome_none, Bool.false_eq_true, if_false]
    refine find?_append_single _ _ ?_ _
    apply hdisj
    cases status <;> simp [rowMatch, applyUpdate]
  · simp only [hfind, Option.isSome_some, if_true]
    refine find?_updateFirst_other _ _ _ hdisj ?_ _
    intro x hx
    apply hdisj
    rw [rowMatch_write]
    exact hx

/-! ## Job-observation tracking (status, cost, error) -/

/-- Observable job fields that only the explicit job mutations of
`process_job` / `_process_with_profile` change (stage recording only
touches `current_stage`). -/
def jobObs (j : Job) : JobStatus × ℚ × Option String := (j.status, j.cost_estimate, j.error)

/-- Two states agree on every job's status, cost and error. -/
def JobsObs (s s' : EngineState) : Prop :=
  ∀ id, (getJob s' id).map jobObs = (getJob s id).map jobObs

theorem JobsObs.rfl (s : EngineState) : JobsObs s s := fun _ => Eq.refl _

theorem JobsObs.trans {s1 s2 s3 : EngineState} (h12 : JobsObs s1 s2) (h23 : JobsObs s2 s3) :
    JobsObs s1 s3 := fun id => (h23 id).trans (h12 id)

theorem find?_map_pred (g : Job → Job) (hg : ∀ j, (g j).id = j.id) (id : String) :
    ∀ l : List Job, (l.map g).find? (fun j => j.id == id) =
      (l.find? (fun j => j.id == id)).map g := by
  intro l
  induction l with
  | nil => rfl
  | cons j js ih =>
    rw [List.map_cons]
    by_cases hj : (j.id == id) = true
    · have hgj : ((g j).id == id) = true := by rw [hg j]; exact hj
      rw [@List.find?_cons_of_pos Job (fun x => x.id == id) (g j) (js.map g) hgj,
        @List.find?_cons_of_pos Job (fun x => x.id == id) j js hj]
      rfl
    · have hgj : ¬ ((g j).id == id) = true := by rw [hg j]; exact hj
      rw [@List.find?_cons_of_neg Job (fun x => x.id == id) (g j) (js.map g)
          (by simpa using hgj),
        @List.find?_cons_of_neg Job (fun x => x.id == id) j js (by simpa using hj)]
      exact ih

theorem getJob_updateJob (s : EngineState) (id' : String) (f : Job → Job)
    (hpres : ∀ j, (f j).id = j.id) (id : String) :
    getJob (updateJob s id' f) id =
      (getJob s id).map (fun j => if j.id == id' then f j else j) := by
  rw [getJob, updateJob, getJob]
  refine find?_map_pred (fun j => if j.id == id' then f j else j) ?_ id s.jobs
  intro j
  show (if (j.id == id') = true then f j else j).id = j.id
  by_cases h : (j.id == id') = true
  · rw [if_pos h]
    exact hpres j
  · rw [if_neg h]

theorem JobsObs_updateJob (s : EngineState) (id' : String) (f : Job → Job)
    (hpres : ∀ j, (f j).id = j.id) (hobs : ∀ j, jobObs (f j) = jobObs j) :
    JobsObs s (updateJob s id' f) := by
  intro id
  rw [getJob_updateJob s id' f hpres id, Option.map_map]
  rcases getJob s id with _ | j
  · rfl
  · show some (jobObs (if j.id == id' then f j else j)) = some (jobObs j)
    by_cases h : (j.id == id') = true
    · rw [if_pos h, hobs]
    · rw [if_neg h]

theorem getJob_record_stage (s : EngineState) (jobId stageId : String)
    (status : StageStatus) (u : StageUpdate) (id : String) :
    getJob (record_stage s jobId stageId status u) id =
      (getJob s id).map
        (fun j => if j.id == jobId then { j with current_stage := some stageId } else j) := by
  rw [record_stage]
  exact getJob_updateJob _ jobId (fun j => { j with current_stage := some stageId })
    (fun j => Eq.refl _) id

theorem JobsObs_record_stage (s : EngineState) (jobId stageId : String)
    (status : StageStatus) (u : StageUpdate) :
    JobsObs s (record_stage s jobId stageId status u) := by
  intro id
  rw [getJob_record_stage, Option.map_map]
  rcases getJob s id with _ | j
  · rfl
  · show some (jobObs (if j.id == jobId then { j with current_stage := some stageId } else j)) =
      some (jobObs j)
    by_cases h : (j.id == jobId) = true
    · rw [if_pos h]
      rfl
    · rw [if_neg h]

theorem JobsObs_exec_stage (cfg : WorldConfig) (jobId : String) (stage : Stage)
    (ci : String) (prev : List (String × String)) (s : EngineState) :
    JobsObs s (exec_stage cfg jobId stage ci prev s).1 := by
  rw [exec_stage]
  cases resolve_provider cfg.env stage.model stage.provider with
  | error e =>
    exact (JobsObs_record_stage _ _ _ _ _).trans (JobsObs_record_stage _ _ _ _ _)
  | ok pc =>
    dsimp only
    cases cfg.llm stage.name (build_prompt stage.prompt_template ci prev) with
    | error e =>
      exact (JobsObs_record_stage _ _ _ _ _).trans (JobsObs_record_stage _ _ _ _ _)
    | ok r =>
      obtain ⟨o, it, ot⟩ := r
      dsimp only
      refine (JobsObs_record_stage s jobId stage.name .RUNNING
        { model_used := some stage.model }).trans ?_
      exact JobsObs_record_stage _ jobId stage.name .COMPLETE _

theorem JobsObs_run_stages (cfg : WorldConfig) (jobId : String) (stages : List Stage) :
    ∀ (s : EngineState) (ci : String) (prev : List (String × String)) (tc : ℚ),
      JobsObs s (run_stages cfg jobId stages s ci prev tc).1 := by
  induction stages with
  | nil => intro s ci prev tc; exact JobsObs.rfl s
  | cons stage rest ih =>
    intro s ci prev tc
    rw [run_stages]
    rcases (match get_stage_result s jobId stage.name with
      | some cached =>
        match cached.output_path with
        | some p => if fsExists s.fs p then some (readText s.fs p, cached.cost_estimate) else none
        | none => none
      | none => none : Option (String × ℚ)) with _ | ⟨content, cost⟩
    · rcases hex : exec_stage cfg jobId stage ci prev s with ⟨s', r⟩
      have hobs : JobsObs s s' := by
        have h := JobsObs_exec_stage cfg jobId stage ci prev s
        rw [hex] at h
        exact h
      rcases r with e | ⟨o, c⟩
      · exact hobs
      · exact hobs.trans (ih _ _ _ _)
    · exact ih _ _ _ _

theorem JobsObs_of_jobs_eq {s s' : EngineState} (h : s'.jobs = s.jobs) : JobsObs s s' := by
  intro id
  rw [getJob, getJob, h]

theorem JobsObs_diarization_step (cfg : WorldConfig) (s : EngineState) (jobId : String)
    (d : ℚ) : JobsObs s (diarization_step cfg s jobId d).1 := by
  rw [diarization_step]
  split
  · cases cfg.diarize with
    | ok segs => exact (JobsObs_record_stage _ _ _ _ _).trans (JobsObs_record_stage _ _ _ _ _)
    | error e => exact (JobsObs_record_stage _ _ _ _ _).trans (JobsObs_record_stage _ _ _ _ _)
  · exact JobsObs.rfl s

theorem JobsObs_formatting_step (cfg : WorldConfig) (s : EngineState) (jobId : String)
    (t nt : String) : JobsObs s (formatting_step cfg s jobId t nt).1 := by
  rw [formatting_step]
  split
  · exact (JobsObs_record_stage _ _ _ _ _).trans (JobsObs_record_stage _ _ _ _ _)
  · exact JobsObs_record_stage _ _ _ _ _

theorem JobsObs_process_standard (cfg : WorldConfig) (s : EngineState) (job : Job)
    (ap : String) (td : TranscriptData) (nt : String) :
    JobsObs s (process_standard cfg s job ap td nt).1 := by
  rw [process_standard]
  rcases hd : diarization_step cfg s job.id td.duration with ⟨s1, dsegs⟩
  dsimp only
  rcases hf : formatting_step cfg s1 job.id
      (build_speaker_transcript (merge_transcript_with_speakers td.segments dsegs)) nt with
    ⟨s3, ftext⟩
  dsimp only
  rcases hg : generate_outputs (record_stage s3 job.id "output" .RUNNING {}) ftext nt
      (stem ap) with ⟨s5, outs⟩
  dsimp only
  have h1 : JobsObs s s1 := by
    have h := JobsObs_diarization_step cfg s job.id td.duration
    rw [hd] at h
    exact h
  have h3 : JobsObs s1 s3 := by
    have h := JobsObs_formatting_step cfg s1 job.id
      (build_speaker_transcript (merge_transcript_with_speakers td.segments dsegs)) nt
    rw [hf] at h
    exact h
  have h5 : JobsObs (record_stage s3 job.id "output" .RUNNING {}) s5 := by
    have h := generate_outputs_jobs (record_stage s3 job.id "output" .RUNNING {}) ftext nt
      (stem ap)
    rw [hg] at h
    exact JobsObs_of_jobs_eq h
  exact (((h1.trans h3).trans (JobsObs_record_stage _ _ _ _ _)).trans h5).trans
    (JobsObs_record_stage _ _ _ _ _)

theorem JobsObs_transcription_step (cfg : WorldConfig) (s : EngineState) (job : Job) :
    JobsObs s (transcription_step cfg s job).1 := by
  rw [transcription_step]
  cases cached_transcript s job.id with
  | some t => exact JobsObs.rfl s
  | none =>
    dsimp only
    split
    · cases cfg.transcribe with
      | ok td =>
        dsimp only
        refine (JobsObs_record_stage s job.id "transcription" .RUNNING {}).trans ?_
        refine JobsObs.trans (JobsObs_of_jobs_eq ?_) (JobsObs_record_stage _ _ _ _ _)
        rfl
      | error e => exact JobsObs_record_stage _ _ _ _ _
    · exact JobsObs_record_stage _ _ _ _ _

theorem JobsObs_safe_archive (s : EngineState) (ap : String) :
    JobsObs s (safe_archive s ap) :=
  JobsObs_of_jobs_eq (safe_archive_jobs s ap)

theorem generate_outputs_stages (s : EngineState) (f n fn : String) :
    (generate_outputs s f n fn).1.stages = s.stages := by
  rw [generate_outputs]
  cases hmd : ["meeting", "supervision", "client", "braindump"].contains n <;>
    cases hdx : ["meeting", "supervision", "client", "lecture"].contains n <;>
      simp [hmd, hdx]

theorem safe_archive_stages (s : EngineState) (ap : String) :
    (safe_archive s ap).stages = s.stages := by
  rw [safe_archive]
  cases s.fs.lookup ap <;> rfl

theorem updateJob_stages (s : EngineState) (id : String) (f : Job → Job) :
    (updateJob s id f).stages = s.stages := rfl

theorem transcription_step_cached (cfg : WorldConfig) (s : EngineState) (job : Job)
    (td : TranscriptData) (hc : cached_transcript s job.id = some td) :
    transcription_step cfg s job = (s, .ok td) := by
  rw [transcription_step, hc]

theorem dispatch_step_standard (cfg : WorldConfig) (s : EngineState) (job : Job)
    (fp : String) (td : TranscriptData)
    (hprof : (if job.profile_id != "" then
        cfg.profiles.find? (fun p => p.id == job.profile_id) else none) = none) :
    dispatch_step cfg s job fp td =
      ((process_standard cfg s job fp td
          (if job.profile_id = "" then "meeting" else job.profile_id)).1,
       .ok (process_standard cfg s job fp td
          (if job.profile_id = "" then "meeting" else job.profile_id)).2) := by
  rw [dispatch_step, hprof]

theorem run_job_standard_ok (cfg : WorldConfig) (s : EngineState) (job : Job)
    (fp : String) (td : TranscriptData)
    (hloc : locate_source s job = some fp)
    (hc : cached_transcript s job.id = some td)
    (hprof : (if job.profile_id != "" then
        cfg.profiles.find? (fun p => p.id == job.profile_id) else none) = none) :
    run_job cfg s job =
      (safe_archive (process_standard cfg s job fp td
          (if job.profile_id = "" then "meeting" else job.profile_id)).1 fp,
       .ok ()) := by
  rw [run_job, hloc, transcription_step_cached cfg s job td hc]
  dsimp only
  rw [dispatch_step_standard cfg s job fp td hprof]

theorem process_job_of_run_ok (cfg : WorldConfig) (s : EngineState) (job_id : String)
    (job : Job) (s2 : EngineState)
    (hg : getJob s job_id = some job)
    (hrun : run_job cfg (updateJob s job_id (fun j => { j with status := .PROCESSING }))
        job = (s2, .ok ())) :
    process_job cfg s job_id =
      updateJob s2 job_id (fun j =>
        { j with status := .COMPLETE, completed_at := some s2.now,
                 current_stage := some "complete" }) := by
  rw [process_job, hg]
  dsimp only
  rw [hrun]

theorem formatting_step_llm_fail (cfg : WorldConfig) (s : EngineState)
    (jobId t nt e : String)
    (hf : cfg.formatter = true) (he : cfg.format_llm t nt = .error e) :
    formatting_step cfg s jobId t nt =
      (record_stage (record_stage s jobId "formatting" .RUNNING {}) jobId "formatting"
        .COMPLETE {},
       "<!-- Formatting failed: " ++ e ++ " -->\n\n# Raw Transcript\n\n" ++ t) := by
  rw [formatting_step, if_pos hf, format_transcript, he]

theorem diarization_step_fail (cfg : WorldConfig) (s : EngineState) (jobId : String)
    (d : ℚ) (e : String) (hd : cfg.diarizer = true) (he : cfg.diarize = .error e) :
    diarization_step cfg s jobId d =
      (record_stage (record_stage s jobId "diarization" .RUNNING {}) jobId "diarization"
        .FAILED { error := some e },
       [⟨"SPEAKER_00", 0, d⟩]) := by
  rw [diarization_step, if_pos hd, he]

theorem diarization_step_absent (cfg : WorldConfig) (s : EngineState) (jobId : String)
    (d : ℚ) (hd : cfg.diarizer = false) :
    diarization_step cfg s jobId d = (s, [⟨"SPEAKER_00", 0, d⟩]) := by
  rw [diarization_step, if_neg (by rw [hd]; exact Bool.false_ne_true)]

/-! ## Claim C10 -/

theorem getJob_status_updateJob_complete (s2 : EngineState) (job_id : String)
    (hsome : ∃ j2, getJob s2 job_id = some j2) :
    (getJob (updateJob s2 job_id (fun j =>
        { j with status := .COMPLETE, completed_at := some s2.now,
                 current_stage := some "complete" })) job_id).map (fun j => j.status) =
      some .COMPLETE := by
  obtain ⟨j2, hj2⟩ := hsome
  have hj2id : j2.id = job_id := getJob_id s2 job_id j2 hj2
  rw [getJob_updateJob s2 job_id (fun j =>
      { j with status := .COMPLETE, completed_at := some s2.now,
               current_stage := some "complete" }) (fun j => Eq.refl _) job_id, hj2]
  simp [hj2id]

theorem process_standard_rows_fmt_fallback (cfg : WorldConfig) (s : EngineState)
    (job : Job) (ap : String) (td : TranscriptData) (nt e : String)
    (hf : cfg.formatter = true) (hfail : ∀ t n, cfg.format_llm t n = .error e) :
    (∃ r, (process_standard cfg s job ap td nt).1.stages.find?
          (rowMatch job.id "formatting") = some r ∧
        r.status = .COMPLETE) ∧
    (∃ r, (process_standard cfg s job ap td nt).1.stages.find?
          (rowMatch job.id "output") = some r ∧
        r.status = .COMPLETE) := by
  rw [process_standard]
  rcases hd : diarization_step cfg s job.id td.duration with ⟨s1, dsegs⟩
  dsimp only
  rw [formatting_step_llm_fail cfg s1 job.id
    (build_speaker_transcript (merge_transcript_with_speakers td.segments dsegs)) nt e hf
    (hfail _ _)]
  dsimp only
  rcases hg : generate_outputs
      (record_stage
        (record_stage (record_stage s1 job.id "formatting" .RUNNING {}) job.id "formatting"
          .COMPLETE {})
        job.id "output" .RUNNING {})
      ("<!-- Formatting failed: " ++ e ++ " -->\n\n# Raw Transcript\n\n" ++
        build_speaker_transcript (merge_transcript_with_speakers td.segments dsegs)) nt
      (stem ap) with ⟨s5, outs⟩
  dsimp only
  have h5 : s5.stages =
      (record_stage
        (record_stage (record_stage s1 job.id "formatting" .RUNNING {}) job.id "formatting"
          .COMPLETE {})
        job.id "output" .RUNNING {}).stages := by
    have h := generate_outputs_stages
      (record_stage
        (record_stage (record_stage s1 job.id "formatting" .RUNNING {}) job.id "formatting"
          .COMPLETE {})
        job.id "output" .RUNNING {})
      ("<!-- Formatting failed: " ++ e ++ " -->\n\n# Raw Transcript\n\n" ++
        build_speaker_transcript (merge_transcript_with_speakers td.segments dsegs)) nt
      (stem ap)
    rw [hg] at h
    exact h
  constructor
  · obtain ⟨r, hr, hrs, _, _⟩ := record_stage_row_self
      (record_stage s1 job.id "formatting" .RUNNING {}) job.id "formatting" .COMPLETE {}
    refine ⟨r, ?_, hrs⟩
    rw [record_stage_row_other s5 job.id "output" .COMPLETE {} job.id "formatting"
      (Or.inr (by decide))]
    rw [h5]
    rw [record_stage_row_other _ job.id "output" .RUNNING {} job.id "formatting"
      (Or.inr (by decide))]
    exact hr
  · obtain ⟨r2, hr2, hrs2, _, _⟩ := record_stage_row_self s5 job.id "output" .COMPLETE {}
    exact ⟨r2, hr2, hrs2⟩

/-- Concrete configuration for C10: the formatter is initialized and
its LLM call always fails with an HTTP 401 error. -/
def c10Cfg : WorldConfig :=
  { env := fun _ => false, groq := true, diarizer := false, formatter := true,
    format_llm := fun _ _ => .error "HTTP 401" }

/-- Cached transcript used by C10's counterexample and witness. -/
def c10Td : TranscriptData := ⟨[⟨0, 2, "hi"⟩], "hi", 2⟩

/-- Concrete store for C10: a QUEUED default-pipeline job with a cached
COMPLETE transcription. -/
def c10State : EngineState :=
  { jobs := [{ id := "j1", profile_id := "", filename := "inbox/a.mp3",
               status := .QUEUED }],
    stages := [{ job_id := "j1", stage_id := "transcription", status := .COMPLETE,
                 output_path := some "processing/job_data/j1/transcription.json" }],
    fs := [("inbox/a.mp3", .media),
           ("processing/job_data/j1/transcription.json", .json c10Td)] }

/-- C10 counterexample: with the formatter's LLM call failing,
`format_transcript` catches the error and returns fallback text, so the
formatting StageResult is recorded COMPLETE with no error — never
FAILED with the error string — and the produced document carries the
fallback-wrapped transcript rather than the bare speaker transcript;
the job still finalizes COMPLETE. -/
theorem C10_counterexample :
    ((process_job c10Cfg c10State "j1").stages.find? (rowMatch "j1" "formatting")).map
        (fun r => (r.status, r.error)) = some (.COMPLETE, none) ∧
    readText (process_job c10Cfg c10State "j1").fs "output/transcripts/a.md" =
      mdWrap ("<!-- Formatting failed: HTTP 401 -->\n\n# Raw Transcript\n\n" ++
        "**SPEAKER_00:**\nhi") ∧
    ("<!-- Formatting failed: HTTP 401 -->\n\n# Raw Transcript\n\n**SPEAKER_00:**\nhi"
        : String) ≠ "**SPEAKER_00:**\nhi" ∧
    (getJob (process_job c10Cfg c10State "j1") "j1").map (fun j => j.status) =
      some .COMPLETE := by
  refine ⟨by decide, by decide, by decide, by decide⟩

/-- C10 (amended): in the default pipeline a failing LLM formatting
call does not fail the job, but not via the claimed FAILED row:
`DeepSeekFormatter.format_transcript` catches every exception and
returns the raw transcript behind a fallback header instead of raising,
so the formatting StageResult is recorded COMPLETE, the output stage
runs with the fallback-wrapped speaker transcript as the document
content, and the job finalizes COMPLETE. -/
theorem C10_formatting_fallback (cfg : WorldConfig) (s : EngineState) (job_id : String)
    (job : Job) (td : TranscriptData) (fp e : String)
    (hget : getJob s job_id = some job)
    (hloc : locate_source s job = some fp)
    (hcache : cached_transcript s job.id = some td)
    (hprof : (if job.profile_id != "" then
        cfg.profiles.find? (fun p => p.id == job.profile_id) else none) = none)
    (hfmt : cfg.formatter = true)
    (hfail : ∀ t n, cfg.format_llm t n = .error e) :
    (∀ s' t n, (formatting_step cfg s' job.id t n).2 =
      "<!-- Formatting failed: " ++ e ++ " -->\n\n# Raw Transcript\n\n" ++ t) ∧
    (∃ r, (process_job cfg s job_id).stages.find? (rowMatch job.id "formatting") = some r ∧
      r.status = .COMPLETE) ∧
    (∃ r, (process_job cfg s job_id).stages.find? (rowMatch job.id "output") = some r ∧
      r.status = .COMPLETE) ∧
    (getJob (process_job cfg s job_id) job_id).map (fun j => j.status) =
      some .COMPLETE := by
  have hjid : job.id = job_id := getJob_id s job_id job hget
  have hrun := run_job_standard_ok cfg
    (updateJob s job_id (fun j => { j with status := .PROCESSING })) job fp td hloc hcache
    hprof
  have hpe := process_job_of_run_ok cfg s job_id job _ hget hrun
  refine ⟨?_, ?_, ?_, ?_⟩
  · intro s' t n
    rw [formatting_step_llm_fail cfg s' job.id t n e hfmt (hfail t n)]
  · obtain ⟨⟨r, hr, hrs⟩, _⟩ := process_standard_rows_fmt_fallback cfg
      (updateJob s job_id (fun j => { j with status := .PROCESSING })) job fp td
      (if job.profile_id = "" then "meeting" else job.profile_id) e hfmt hfail
    refine ⟨r, ?_, hrs⟩
    rw [hpe, updateJob_stages, safe_archive_stages]
    exact hr
  · obtain ⟨_, ⟨r, hr, hrs⟩⟩ := process_standard_rows_fmt_fallback cfg
      (updateJob s job_id (fun j => { j with status := .PROCESSING })) job fp td
      (if job.profile_id = "" then "meeting" else job.profile_id) e hfmt hfail
    refine ⟨r, ?_, hrs⟩
    rw [hpe, updateJob_stages, safe_archive_stages]
    exact hr
  · rw [hpe]
    have hobs : JobsObs (updateJob s job_id (fun j => { j with status := .PROCESSING }))
        (safe_archive (process_standard cfg
          (updateJob s job_id (fun j => { j with status := .PROCESSING })) job fp td
          (if job.profile_id = "" then "meeting" else job.profile_id)).1 fp) :=
      (JobsObs_process_standard cfg
        (updateJob s job_id (fun j => { j with status := .PROCESSING })) job fp td
        (if job.profile_id = "" then "meeting" else job.profile_id)).trans
        (JobsObs_safe_archive _ fp)
    have hsp1 : getJob (updateJob s job_id (fun j => { j with status := .PROCESSING }))
        job_id = some { job with status := .PROCESSING } := by
      rw [getJob_updateJob s job_id (fun j => { j with status := .PROCESSING })
        (fun j => Eq.refl _) job_id, hget]
      simp [hjid]
    have hobs1 := hobs job_id
    rw [hsp1] at hobs1
    obtain ⟨j2, hj2, hj2obs⟩ := Option.map_eq_some'.mp hobs1
    exact getJob_status_updateJob_complete _ job_id ⟨j2, hj2⟩

/-- Witness for C10's amended theorem at a concrete input. -/
theorem C10_formatting_fallback_witness :
    c10Cfg.formatter = true ∧
    (∀ t n, c10Cfg.format_llm t n = .error "HTTP 401") ∧
    (getJob (process_job c10Cfg c10State "j1") "j1").map (fun j => j.status) =
      some .COMPLETE :=
  ⟨rfl, fun _ _ => rfl,
    (C10_formatting_fallback c10Cfg c10State "j1"
      { id := "j1", profile_id := "", filename := "inbox/a.mp3", status := .QUEUED }
      c10Td "inbox/a.mp3" "HTTP 401" (by decide) (by decide) (by decide) (by decide) rfl
      (fun _ _ => rfl)).2.2.2⟩

/-! ## Claim C9 -/

/-- Concrete configuration for C9's counterexample: diarizer not
initialized (`HUGGINGFACE_TOKEN` unset). -/
def c9Cfg : WorldConfig :=
  { env := fun _ => false, groq := true, diarizer := false, formatter := false,
    transcribe := .ok ⟨[⟨0, 2, "hello"⟩, ⟨2, 4, "there"⟩], "hello there", 4⟩ }

/-- Concrete store for C9's counterexample. -/
def c9State : EngineState :=
  { jobs := [{ id := "j1", profile_id := "meeting", filename := "inbox/a.mp3",
               status := .QUEUED }],
    stages := [], fs := [("inbox/a.mp3", .media)] }

/-- C9 counterexample: with the diarizer not initialized the default
pipeline substitutes `SPEAKER_00` and the job completes, but NO
`diarization` StageResult is recorded at all — the FAILED row only
appears when an initialized diarizer raises during inference. -/
theorem C9_counterexample :
    (process_job c9Cfg c9State "j1").stages.filter
        (fun r => r.stage_id == "diarization") = [] ∧
    (getJob (process_job c9Cfg c9State "j1") "j1").map (fun j => j.status) =
      some .COMPLETE ∧
    readText (process_job c9Cfg c9State "j1").fs "output/transcripts/a.md" =
      mdWrap "**SPEAKER_00:**\nhello there" := by
  refine ⟨by decide, by decide, by decide⟩

theorem formatting_step_off (cfg : WorldConfig) (s : EngineState) (jobId t nt : String)
    (hf : cfg.formatter = false) :
    formatting_step cfg s jobId t nt =
      (record_stage s jobId "formatting" .RUNNING {}, t) := by
  rw [formatting_step, if_neg (by rw [hf]; exact Bool.false_ne_true)]

theorem process_standard_rows_diar_fail (cfg : WorldConfig) (s : EngineState) (job : Job)
    (ap : String) (td : TranscriptData) (nt e : String)
    (hdz : cfg.diarizer = true) (herr : cfg.diarize = .error e)
    (hfmtoff : cfg.formatter = false) :
    ∃ r, (process_standard cfg s job ap td nt).1.stages.find?
        (rowMatch job.id "diarization") = some r ∧
      r.status = .FAILED ∧ r.error = some e := by
  rw [process_standard]
  rw [diarization_step_fail cfg s job.id td.duration e hdz herr]
  dsimp only
  rw [formatting_step_off cfg _ job.id _ _ hfmtoff]
  dsimp only
  set sD := record_stage (record_stage s job.id "diarization" .RUNNING {}) job.id
    "diarization" .FAILED { error := some e } with hsD
  set spk := build_speaker_transcript
    (merge_transcript_with_speakers td.segments [⟨"SPEAKER_00", 0, td.duration⟩]) with hspk
  rcases hg : generate_outputs
      (record_stage (record_stage sD job.id "formatting" .RUNNING {}) job.id "output"
        .RUNNING {}) spk nt (stem ap) with ⟨s5, outs⟩
  dsimp only
  have h5 : s5.stages =
      (record_stage (record_stage sD job.id "formatting" .RUNNING {}) job.id "output"
        .RUNNING {}).stages := by
    have h := generate_outputs_stages
      (record_stage (record_stage sD job.id "formatting" .RUNNING {}) job.id "output"
        .RUNNING {}) spk nt (stem ap)
    rw [hg] at h
    exact h
  obtain ⟨r, hr, hrs, hre, _⟩ := record_stage_row_self
    (record_stage s job.id "diarization" .RUNNING {}) job.id "diarization" .FAILED
    { error := some e }
  refine ⟨r, ?_, hrs, hre e rfl⟩
  rw [record_stage_row_other s5 job.id "output" .COMPLETE {} job.id "diarization"
    (Or.inr (by decide))]
  rw [h5]
  rw [record_stage_row_other _ job.id "output" .RUNNING {} job.id "diarization"
    (Or.inr (by decide))]
  rw [record_stage_row_other sD job.id "formatting" .RUNNING {} job.id "diarization"
    (Or.inr (by decide))]
  exact hr

/-- C9 (amended): when an initialized diarizer fails during inference,
the runner substitutes one whole-audio `SPEAKER_00` segment, records a
`diarization` StageResult FAILED with the error string, and the job
still finalizes COMPLETE.  When the diarizer was never initialized the
substitution and completion still happen but — contrary to the claim —
no `diarization` StageResult is recorded (see the counterexample). -/
theorem C9_diarization_failure (cfg : WorldConfig) (s : EngineState) (job_id : String)
    (job : Job) (td : TranscriptData) (fp e : String)
    (hget : getJob s job_id = some job)
    (hloc : locate_source s job = some fp)
    (hcache : cached_transcript s job.id = some td)
    (hprof : (if job.profile_id != "" then
        cfg.profiles.find? (fun p => p.id == job.profile_id) else none) = none)
    (hdz : cfg.diarizer = true)
    (herr : cfg.diarize = .error e)
    (hfmtoff : cfg.formatter = false) :
    (∀ s' : EngineState, (diarization_step cfg s' job.id td.duration).2 =
      [⟨"SPEAKER_00", 0, td.duration⟩]) ∧
    (∃ r, (process_job cfg s job_id).stages.find? (rowMatch job.id "diarization") = some r ∧
      r.status = .FAILED ∧ r.error = some e) ∧
    (getJob (process_job cfg s job_id) job_id).map (fun j => j.status) =
      some .COMPLETE := by
  have hjid : job.id = job_id := getJob_id s job_id job hget
  have hrun := run_job_standard_ok cfg
    (updateJob s job_id (fun j => { j with status := .PROCESSING })) job fp td hloc hcache
    hprof
  have hpe := process_job_of_run_ok cfg s job_id job _ hget hrun
  refine ⟨?_, ?_, ?_⟩
  · intro s'
    rw [diarization_step_fail cfg s' job.id td.duration e hdz herr]
  · obtain ⟨r, hr, hrs, hre⟩ := process_standard_rows_diar_fail cfg
      (updateJob s job_id (fun j => { j with status := .PROCESSING })) job fp td
      (if job.profile_id = "" then "meeting" else job.profile_id) e hdz herr hfmtoff
    refine ⟨r, ?_, hrs, hre⟩
    rw [hpe, updateJob_stages, safe_archive_stages]
    exact hr
  · rw [hpe]
    have hobs : JobsObs (updateJob s job_id (fun j => { j with status := .PROCESSING }))
        (safe_archive (process_standard cfg
          (updateJob s job_id (fun j => { j with status := .PROCESSING })) job fp td
          (if job.profile_id = "" then "meeting" else job.profile_id)).1 fp) :=
      (JobsObs_process_standard cfg
        (updateJob s job_id (fun j => { j with status := .PROCESSING })) job fp td
        (if job.profile_id = "" then "meeting" else job.profile_id)).trans
        (JobsObs_safe_archive _ fp)
    have hsp1 : getJob (updateJob s job_id (fun j => { j with status := .PROCESSING }))
        job_id = some { job with status := .PROCESSING } := by
      rw [getJob_updateJob s job_id (fun j => { j with status := .PROCESSING })
        (fun j => Eq.refl _) job_id, hget]
      simp [hjid]
    have hobs1 := hobs job_id
    rw [hsp1] at hobs1
    obtain ⟨j2, hj2, hj2obs⟩ := Option.map_eq_some'.mp hobs1
    exact getJob_status_updateJob_complete _ job_id ⟨j2, hj2⟩

/-- Concrete configuration for C9's amended-theorem witness: the
diarizer is initialized but inference raises. -/
def c9FailCfg : WorldConfig :=
  { env := fun _ => false, groq := true, diarizer := true,
    diarize := .error "CUDA out of memory", formatter := false }

/-- Cached transcript for C9's witness. -/
def c9Td : TranscriptData := ⟨[⟨0, 2, "hi"⟩], "hi", 2⟩

/-- Concrete store for C9's witness. -/
def c9FailState : EngineState :=
  { jobs := [{ id := "j1", profile_id := "", filename := "inbox/a.mp3",
               status := .QUEUED }],
    stages := [{ job_id := "j1", stage_id := "transcription", status := .COMPLETE,
                 output_path := some "processing/job_data/j1/transcription.json" }],
    fs := [("inbox/a.mp3", .media),
           ("processing/job_data/j1/transcription.json", .json c9Td)] }

/-- Witness for C9's amended theorem at a concrete input. -/
theorem C9_diarization_failure_witness :
    c9FailCfg.diarizer = true ∧
    c9FailCfg.diarize = .error "CUDA out of memory" ∧
    (getJob (process_job c9FailCfg c9FailState "j1") "j1").map (fun j => j.status) =
      some .COMPLETE :=
  ⟨rfl, rfl,
    (C9_diarization_failure c9FailCfg c9FailState "j1"
      { id := "j1", profile_id := "", filename := "inbox/a.mp3", status := .QUEUED }
      c9Td "inbox/a.mp3" "CUDA out of memory" (by decide) (by decide) (by decide)
      (by decide) rfl rfl rfl).2.2⟩

/-! ## Claim C8 -/

/-- Profile for C8's counterexample: one LLM stage, nothing saved as a
final artifact. -/
def c8Profile : Profile :=
  { id := "p1",
    stages := [{ name := "clean", prompt_template := "{transcript}",
                 model := "deepseek-chat", save_intermediate := false }] }

/-- Configuration for C8's counterexample: everything succeeds. -/
def c8Cfg : WorldConfig :=
  { env := fun v => v == "DEEPSEEK_API_KEY", groq := true,
    transcribe := .ok ⟨[⟨0, 2, "hi"⟩], "hi", 2⟩,
    llm := fun _ _ => .ok ("cleaned", 10, 10),
    profiles := [c8Profile] }

/-- Store for C8's counterexample. -/
def c8State : EngineState :=
  { jobs := [{ id := "j1", profile_id := "p1", filename := "inbox/a.mp3",
               status := .QUEUED }],
    stages := [], fs := [("inbox/a.mp3", .media)] }

/-- C8 counterexample: the run succeeds with zero output files (the only
stage has `save_intermediate = false`), yet the source file is moved to
the archive directory — no output file was verified to exist on disk. -/
theorem C8_counterexample :
    fsExists (process_job c8Cfg c8State "j1").fs "processing/archive/a.mp3" = true ∧
    fsExists (process_job c8Cfg c8State "j1").fs "inbox/a.mp3" = false ∧
    (process_job c8Cfg c8State "j1").fs.filter
        (fun e => "output/".data.isPrefixOf e.1.data) = [] ∧
    (getJob (process_job c8Cfg c8State "j1") "j1").map (fun j => j.status) =
      some .COMPLETE := by
  refine ⟨by decide, by decide, by decide, by decide⟩

theorem lookup_fsRemove (fs : List (String × FileData)) (p : String) :
    (fsRemove fs p).lookup p = none := by
  rw [fsRemove]
  induction fs with
  | nil => rfl
  | cons e rest ih =>
    rw [List.filter_cons]
    by_cases h : (e.1 != p) = true
    · rw [if_pos h]
      have hpe : (p == e.1) = false := by
        simp only [bne_iff_ne, ne_eq] at h
        exact beq_false_of_ne (fun hc => h hc.symm)
      simp only [List.lookup, hpe]
      exact ih
    · rw [if_neg h]
      exact ih

/-- C8 (amended): `_safe_archive` moves the source file into the archive
directory whenever the run reported success, with no verification that
any output file exists on disk; the source is removed from its original
location unconditionally. -/
theorem C8_safe_archive_unconditional (s : EngineState) (ap : String)
    (hex : fsExists s.fs ap = true) :
    fsExists (safe_archive s ap).fs (archiveDir ++ "/" ++ baseName ap) = true ∧
    (ap ≠ archiveDir ++ "/" ++ baseName ap →
      fsExists (safe_archive s ap).fs ap = false) := by
  rw [fsExists] at hex
  rcases hl : s.fs.lookup ap with _ | d
  · rw [hl] at hex
    simp at hex
  · rw [safe_archive, hl]
    dsimp only
    constructor
    · simp [fsExists, fsWrite, List.lookup]
    · intro hne
      simp [fsExists, fsWrite, List.lookup, beq_false_of_ne hne, lookup_fsRemove]
      intro a b hab _
      rw [fsRemove] at hab
      have hmem := (List.mem_filter.mp hab).2
      simp only [bne_iff_ne, ne_eq] at hmem
      exact fun hc => hmem hc.symm

/-- Concrete store for C8's amended-theorem witness. -/
def c8wState : EngineState :=
  { jobs := [], stages := [], fs := [("inbox/b.mp3", FileData.media)] }

/-- Witness for C8's amended theorem at a concrete input. -/
theorem C8_safe_archive_unconditional_witness :
    fsExists c8wState.fs "inbox/b.mp3" = true ∧
      fsExists (safe_archive c8wState "inbox/b.mp3").fs
        (archiveDir ++ "/" ++ baseName "inbox/b.mp3") = true :=
  ⟨by decide, (C8_safe_archive_unconditional c8wState "inbox/b.mp3" (by decide)).1⟩

/-! ## Claim C3: cost accounting -/

/-- The specification's invariant expression: the sum of
`cost_estimate` over the job's StageResult rows with status COMPLETE. -/
def sumCompleteCosts (s : EngineState) (jobId : String) : ℚ :=
  qsum ((s.stages.filter (fun r => r.job_id == jobId && r.status == .COMPLETE)).map
    (fun r => r.cost_estimate))

/-- Contribution of a single row to `sumCompleteCosts`. -/
def rowContribution (jobId : String) (r : StageResult) : ℚ :=
  if r.job_id == jobId && r.status == .COMPLETE then r.cost_estimate else 0

theorem sumCompleteCosts_eq_sum_contributions (s : EngineState) (jobId : String) :
    sumCompleteCosts s jobId = ((s.stages.map (rowContribution jobId)).sum : ℚ) := by
  rw [sumCompleteCosts, qsum_eq_sum]
  induction s.stages with
  | nil => rfl
  | cons r rest ih =>
    rw [List.map_cons, List.sum_cons, List.filter_cons]
    by_cases h : (r.job_id == jobId && r.status == .COMPLETE) = true
    · rw [if_pos h, List.map_cons, List.sum_cons, ih, rowContribution, if_pos h]
    · rw [if_neg h, ih, rowContribution, if_neg h, zero_add]

/-- Sum of contributions over a list with one row appended. -/
theorem contributions_append (jobId : String) (l : List StageResult) (r : StageResult) :
    ((l ++ [r]).map (rowContribution jobId)).sum =
      (l.map (rowContribution jobId)).sum + rowContribution jobId r := by
  rw [List.map_append, List.sum_append]
  simp

/-- Sum of contributions after updating the first matching row. -/
theorem contributions_updateFirst (jobId : String) (p : StageResult → Bool)
    (f : StageResult → StageResult) :
    ∀ (l : List StageResult) (x : StageResult), l.find? p = some x →
      ((updateFirst p f l).map (rowContribution jobId)).sum =
        (l.map (rowContribution jobId)).sum - rowContribution jobId x +
          rowContribution jobId (f x) := by
  intro l
  induction l with
  | nil => intro x hx; simp [List.find?] at hx
  | cons y ys ih =>
    intro x hx
    by_cases hy : p y = true
    · rw [List.find?_cons_of_pos _ hy] at hx
      cases hx
      rw [updateFirst, if_pos hy, List.map_cons, List.sum_cons, List.map_cons, List.sum_cons]
      ring
    · rw [List.find?_cons_of_neg _ (by simpa using hy)] at hx
      rw [updateFirst, if_neg hy, List.map_cons, List.sum_cons, List.map_cons, List.sum_cons,
        ih x hx]
      ring

/-- Exact shape of `record_stage` when no row for the key exists: the
fresh row is appended, with the written status and the update's cost
(zero when none was given). -/
theorem record_stage_row_new (s : EngineState) (jobId stageId : String)
    (status : StageStatus) (u : StageUpdate)
    (habs : s.stages.find? (rowMatch jobId stageId) = none) :
    ∃ r, (record_stage s jobId stageId status u).stages = s.stages ++ [r] ∧
      r.status = status ∧ r.job_id = jobId ∧ r.stage_id = stageId ∧
      r.cost_estimate = u.cost_estimate.getD 0 ∧
      (record_stage s jobId stageId status u).stages.find? (rowMatch jobId stageId) =
        some r := by
  rw [record_stage]
  simp only [habs, Option.isSome_none, Bool.false_eq_true, if_false]
  refine ⟨_, rfl, ?_, ?_, ?_, ?_, ?_⟩
  · cases status <;> simp [applyUpdate]
  · cases status <;> simp [applyUpdate]
  · cases status <;> simp [applyUpdate]
  · rcases hu : u.cost_estimate with _ | v <;> cases status <;> simp [applyUpdate, hu]
  · refine find?_append_single_none _ _ ?_ _ habs
    cases status <;> simp [rowMatch, applyUpdate]

/-- Exact shape of `record_stage` when a row for the key exists: the
first matching row is rewritten in place. -/
theorem record_stage_row_update (s : EngineState) (jobId stageId : String)
    (status : StageStatus) (u : StageUpdate) (x : StageResult)
    (hfind : s.stages.find? (rowMatch jobId stageId) = some x) :
    ∃ w, (record_stage s jobId stageId status u).stages =
        updateFirst (rowMatch jobId stageId) w s.stages ∧
      (w x).status = status ∧ (w x).job_id = x.job_id ∧ (w x).stage_id = x.stage_id ∧
      (w x).cost_estimate = u.cost_estimate.getD x.cost_estimate := by
  rw [record_stage]
  simp only [hfind, Option.isSome_some, if_true]
  refine ⟨_, rfl, ?_, ?_, ?_, ?_⟩
  · cases status <;> simp [applyUpdate]
  · cases status <;> simp [applyUpdate]
  · cases status <;> simp [applyUpdate]
  · rcases hu : u.cost_estimate with _ | v <;> cases status <;> simp [applyUpdate, hu]

/-- A row absent under `rowMatch` is also absent under the stronger
COMPLETE-filtered lookup of `_get_stage_result`. -/
theorem find?_and_none (p q : StageResult → Bool) :
    ∀ l : List StageResult, l.find? p = none →
      l.find? (fun r => p r && q r) = none := by
  intro l
  induction l with
  | nil => intro _; rfl
  | cons r rest ih =>
    intro h
    by_cases hr : p r = true
    · rw [List.find?_cons_of_pos _ hr] at h
      cases h
    · rw [List.find?_cons_of_neg _ (by simpa using hr)] at h
      rw [List.find?_cons_of_neg _ (by simp [hr])]
      exact ih h

theorem get_stage_result_none_of_find_none (s : EngineState) (jobId stageId : String)
    (h : s.stages.find? (rowMatch jobId stageId) = none) :
    get_stage_result s jobId stageId = none := by
  rw [get_stage_result]
  exact find?_and_none _ _ s.stages h

/-- `exec_stage` touches only the `(jobId, stage.name)` stage row: the
lookup of any other stage id of the job is unchanged. -/
theorem exec_stage_row_other (cfg : WorldConfig) (jobId : String) (stage : Stage)
    (ci : String) (prev : List (String × String)) (s : EngineState)
    (n : String) (hne : n ≠ stage.name) :
    (exec_stage cfg jobId stage ci prev s).1.stages.find? (rowMatch jobId n) =
      s.stages.find? (rowMatch jobId n) := by
  rw [exec_stage]
  cases resolve_provider cfg.env stage.model stage.provider with
  | error e =>
    dsimp only
    rw [record_stage_row_other _ jobId stage.name .FAILED _ jobId n (Or.inr hne),
      record_stage_row_other _ jobId stage.name .RUNNING _ jobId n (Or.inr hne)]
  | ok pc =>
    dsimp only
    cases cfg.llm stage.name (build_prompt stage.prompt_template ci prev) with
    | error e =>
      dsimp only
      rw [record_stage_row_other _ jobId stage.name .FAILED _ jobId n (Or.inr hne),
        record_stage_row_other _ jobId stage.name .RUNNING _ jobId n (Or.inr hne)]
    | ok r =>
      obtain ⟨o, it, ot⟩ := r
      dsimp only
      rw [record_stage_row_other _ jobId stage.name .COMPLETE _ jobId n (Or.inr hne)]
      exact record_stage_row_other s jobId stage.name .RUNNING
        { model_used := some stage.model } jobId n (Or.inr hne)

/-- A successful fresh stage execution adds exactly the stage's cost to
the job's COMPLETE-row cost total: the RUNNING row is appended with cost
zero and then rewritten to COMPLETE carrying the stage cost. -/
theorem exec_stage_ok_sum (cfg : WorldConfig) (jobId : String) (stage : Stage)
    (ci : String) (prev : List (String × String)) (s se : EngineState)
    (o : String) (c : ℚ)
    (habs : s.stages.find? (rowMatch jobId stage.name) = none)
    (hok : exec_stage cfg jobId stage ci prev s = (se, .ok (o, c))) :
    (se.stages.map (rowContribution jobId)).sum =
      (s.stages.map (rowContribution jobId)).sum + c := by
  rw [exec_stage] at hok
  rcases hres : resolve_provider cfg.env stage.model stage.provider with e | pc
  · rw [hres] at hok
    dsimp only at hok
    simp at hok
  · rw [hres] at hok
    dsimp only at hok
    rcases hllm : cfg.llm stage.name (build_prompt stage.prompt_template ci prev)
      with e | ⟨out, it, ot⟩
    · rw [hllm] at hok
      dsimp only at hok
      simp at hok
    · rw [hllm] at hok
      dsimp only at hok
      simp only [Prod.mk.injEq, Except.ok.injEq] at hok
      obtain ⟨hs, ho, hc⟩ := hok
      subst hs
      subst hc
      show ((record_stage
          (record_stage s jobId stage.name .RUNNING { model_used := some stage.model })
          jobId stage.name .COMPLETE
          { model_used := some stage.model, input_tokens := some it,
            output_tokens := some ot,
            cost_estimate := some (estimate_cost stage.model it ot),
            output_path := some (jobDataDir jobId ++ "/stage_" ++ stage.name ++ ".txt")
          }).stages.map (rowContribution jobId)).sum =
        (s.stages.map (rowContribution jobId)).sum + estimate_cost stage.model it ot
      obtain ⟨r, hr1, hr2, hr3, hr4, hr5, hr6⟩ :=
        record_stage_row_new s jobId stage.name .RUNNING
          { model_used := some stage.model } habs
      obtain ⟨w, hw1, hw2, hw3, hw4⟩ :=
        record_stage_row_update
          (record_stage s jobId stage.name .RUNNING { model_used := some stage.model })
          jobId stage.name .COMPLETE
          { model_used := some stage.model, input_tokens := some it,
            output_tokens := some ot,
            cost_estimate := some (estimate_cost stage.model it ot),
            output_path := some (jobDataDir jobId ++ "/stage_" ++ stage.name ++ ".txt") }
          r hr6
      rw [hw1, contributions_updateFirst jobId (rowMatch jobId stage.name) w _ r hr6,
        hr1, contributions_append]
      have hcr : rowContribution jobId r = 0 := by
        simp [rowContribution, hr2]
      have hcwr : rowContribution jobId (w r) = estimate_cost stage.model it ot := by
        simp [rowContribution, hw2, hw3, hr3, hw4]
      rw [hcr, hcwr]
      ring

/-- Unfolding of the stage loop on a stage with no recorded row: the
cache check misses and the stage executes afresh. -/
theorem run_stages_cons_fresh (cfg : WorldConfig) (jobId : String) (stage : Stage)
    (rest : List Stage) (s : EngineState) (ci : String)
    (prev : List (String × String)) (tc : ℚ)
    (hnone : get_stage_result s jobId stage.name = none) :
    run_stages cfg jobId (stage :: rest) s ci prev tc =
      match exec_stage cfg jobId stage ci prev s with
      | (s', .error e) => (s', .error e)
      | (s', .ok (output, c)) =>
        run_stages cfg jobId rest s' output (prev ++ [(stage.name, output)]) (radd tc c) := by
  rw [run_stages, hnone]

/-- Stage loop of a fresh successful profile run: starting from a state
with no rows for any of the (distinct) stage names, the loop adds
exactly the accumulated cost difference to the job's COMPLETE-row cost
total, and stage ids outside the profile stay rowless. -/
theorem run_stages_fresh_sum (cfg : WorldConfig) (jobId : String) :
    ∀ (stages : List Stage) (s : EngineState) (ci : String)
      (prev : List (String × String)) (tc0 : ℚ) (s1 : EngineState) (ci1 : String)
      (prev1 : List (String × String)) (tc1 : ℚ),
      (∀ st ∈ stages, s.stages.find? (rowMatch jobId st.name) = none) →
      (stages.map Stage.name).Nodup →
      run_stages cfg jobId stages s ci prev tc0 = (s1, .ok (ci1, prev1, tc1)) →
      ((s1.stages.map (rowContribution jobId)).sum =
          (s.stages.map (rowContribution jobId)).sum + (tc1 - tc0)) ∧
        ∀ n, n ∉ stages.map Stage.name →
          s.stages.find? (rowMatch jobId n) = none →
          s1.stages.find? (rowMatch jobId n) = none := by
  intro stages
  induction stages with
  | nil =>
    intro s ci prev tc0 s1 ci1 prev1 tc1 _ _ hrun
    rw [run_stages] at hrun
    simp only [Prod.mk.injEq, Except.ok.injEq] at hrun
    obtain ⟨hs, -, -, htc⟩ := hrun
    subst hs
    subst htc
    exact ⟨by rw [sub_self, add_zero], fun n _ h => h⟩
  | cons stage rest ih =>
    intro s ci prev tc0 s1 ci1 prev1 tc1 hclean hnodup hrun
    have hhead : s.stages.find? (rowMatch jobId stage.name) = none :=
      hclean stage (List.mem_cons_self stage rest)
    rw [run_stages_cons_fresh cfg jobId stage rest s ci prev tc0
      (get_stage_result_none_of_find_none s jobId stage.name hhead)] at hrun
    rcases hex : exec_stage cfg jobId stage ci prev s with ⟨se, r⟩
    rw [hex] at hrun
    rcases r with e | ⟨o, c⟩
    · dsimp only at hrun
      simp at hrun
    · dsimp only at hrun
      rw [List.map_cons, List.nodup_cons] at hnodup
      obtain ⟨hni, hnd⟩ := hnodup
      have hrowother : ∀ n, n ≠ stage.name →
          se.stages.find? (rowMatch jobId n) = s.stages.find? (rowMatch jobId n) := by
        intro n hne
        have h := exec_stage_row_other cfg jobId stage ci prev s n hne
        rw [hex] at h
        exact h
      have hcleanrest : ∀ st ∈ rest, se.stages.find? (rowMatch jobId st.name) = none := by
        intro st hst
        have hne : st.name ≠ stage.name := by
          intro hc
          have hm : st.name ∈ rest.map Stage.name := List.mem_map_of_mem Stage.name hst
          rw [hc] at hm
          exact hni hm
        rw [hrowother st.name hne]
        exact hclean st (List.mem_cons_of_mem stage hst)
      obtain ⟨ihsum, ihframe⟩ := ih se o (prev ++ [(stage.name, o)]) (radd tc0 c)
        s1 ci1 prev1 tc1 hcleanrest hnd hrun
      have hsum_se : (se.stages.map (rowContribution jobId)).sum =
          (s.stages.map (rowContribution jobId)).sum + c :=
        exec_stage_ok_sum cfg jobId stage ci prev s se o c hhead hex
      refine ⟨?_, ?_⟩
      · rw [ihsum, hsum_se, radd_eq]
        ring
      · intro n hn hns
        have hnmem : n ∉ rest.map Stage.name := by
          intro hc
          refine hn ?_
          rw [List.map_cons]
          exact List.mem_cons_of_mem _ hc
        have hne : n ≠ stage.name := by
          intro hc
          refine hn ?_
          rw [List.map_cons, hc]
          exact List.mem_cons_self _ _
        refine ihframe n hnmem ?_
        rw [hrowother n hne]
        exact hns

/-- The `save_intermediate` output selection of `_process_with_profile`. -/
def pfOutputs (profile : Profile) (prevF : List (String × String)) : List (Stage × String) :=
  profile.stages.filterMap (fun st =>
    match prevF.lookup st.name with
    | some content => if st.save_intermediate then some (st, content) else none
    | none => none)

/-- State after the cost commit and the `output` RUNNING row of
`_process_with_profile`. -/
def pfBase (job : Job) (sR : EngineState) (tcF : ℚ) : EngineState :=
  record_stage (updateJob sR job.id (fun j => { j with cost_estimate := tcF }))
    job.id "output" .RUNNING {}

/-- Tail of `_process_with_profile` after a successful stage loop: cost
commit, `output` RUNNING row, intermediate output files, `output`
COMPLETE row. -/
def profile_finish (job : Job) (ap : String) (profile : Profile)
    (sR : EngineState) (prevF : List (String × String)) (tcF : ℚ) :
    EngineState × List String :=
  let fr := (pfOutputs profile prevF).foldl (output_fold_step ap) (pfBase job sR tcF, [])
  (record_stage fr.1 job.id "output" .COMPLETE {}, fr.2)

/-- On a successful stage loop, `_process_with_profile` is exactly the
finishing tail applied to the loop's result. -/
theorem process_with_profile_ok (cfg : WorldConfig) (s : EngineState) (job : Job)
    (ap : String) (td : TranscriptData) (profile : Profile) (sR : EngineState)
    (ciF : String) (prevF : List (String × String)) (tcF : ℚ)
    (hrs : run_stages cfg job.id profile.stages s (build_raw_transcript td.segments) [] 0 =
      (sR, .ok (ciF, prevF, tcF))) :
    process_with_profile cfg s job ap td profile =
      ((profile_finish job ap profile sR prevF tcF).1,
        .ok (profile_finish job ap profile sR prevF tcF).2) := by
  simp only [process_with_profile]
  rw [hrs]
  rfl

/-- The intermediate-output loop only writes files: stage rows are
untouched. -/
theorem output_fold_stages (ap : String) (l : List (Stage × String)) :
    ∀ acc : EngineState × List String,
      (l.foldl (output_fold_step ap) acc).1.stages = acc.1.stages := by
  induction l with
  | nil => intro acc; rfl
  | cons p rest ih =>
    intro acc
    rw [List.foldl_cons, ih]
    rfl

/-- The finishing tail leaves the job's COMPLETE-row cost total
unchanged: the `output` row is created RUNNING with cost zero and
completed with cost zero. -/
theorem profile_finish_sum (job : Job) (ap : String) (profile : Profile)
    (sR : EngineState) (prevF : List (String × String)) (tcF : ℚ)
    (hout1 : sR.stages.find? (rowMatch job.id "output") = none) :
    ((profile_finish job ap profile sR prevF tcF).1.stages.map
        (rowContribution job.id)).sum =
      (sR.stages.map (rowContribution job.id)).sum := by
  obtain ⟨r, hr1, hr2, hr3, hr4, hr5, hr6⟩ :=
    record_stage_row_new (updateJob sR job.id (fun j => { j with cost_estimate := tcF }))
      job.id "output" .RUNNING {} hout1
  have hs4 : ((pfOutputs profile prevF).foldl (output_fold_step ap)
        (pfBase job sR tcF, ([] : List String))).1.stages = (pfBase job sR tcF).stages :=
    output_fold_stages ap _ _
  have hfind4 : ((pfOutputs profile prevF).foldl (output_fold_step ap)
        (pfBase job sR tcF, ([] : List String))).1.stages.find?
        (rowMatch job.id "output") = some r := by
    rw [hs4]
    exact hr6
  obtain ⟨w, hw1, hw2, hw3, hw4, hw5⟩ :=
    record_stage_row_update ((pfOutputs profile prevF).foldl (output_fold_step ap)
      (pfBase job sR tcF, ([] : List String))).1 job.id "output" .COMPLETE {} r hfind4
  show ((record_stage ((pfOutputs profile prevF).foldl (output_fold_step ap)
      (pfBase job sR tcF, ([] : List String))).1 job.id "output" .COMPLETE {}).stages.map
      (rowContribution job.id)).sum = (sR.stages.map (rowContribution job.id)).sum
  rw [hw1, contributions_updateFirst job.id (rowMatch job.id "output") w _ r hfind4, hs4]
  have hb : (pfBase job sR tcF).stages = sR.stages ++ [r] := by
    show (record_stage (updateJob sR job.id (fun j => { j with cost_estimate := tcF }))
      job.id "output" .RUNNING {}).stages = sR.stages ++ [r]
    rw [hr1, updateJob_stages]
  rw [hb, contributions_append]
  have hcr : rowContribution job.id r = 0 := by
    simp [rowContribution, hr2]
  have hcost : (w r).cost_estimate = 0 := by
    rw [hw5, hr5]
    rfl
  have hcwr : rowContribution job.id (w r) = 0 := by
    simp [rowContribution, hw2, hw3, hr3, hcost]
  rw [hcr, hcwr]
  ring

/-- The finishing tail preserves every job's observable status, cost and
error beyond the explicit cost commit. -/
theorem profile_finish_obs (job : Job) (ap : String) (profile : Profile)
    (sR : EngineState) (prevF : List (String × String)) (tcF : ℚ) (id : String) :
    (getJob (profile_finish job ap profile sR prevF tcF).1 id).map jobObs =
      (getJob (updateJob sR job.id (fun j => { j with cost_estimate := tcF })) id).map
        jobObs := by
  show (getJob (record_stage ((pfOutputs profile prevF).foldl (output_fold_step ap)
      (pfBase job sR tcF, ([] : List String))).1 job.id "output" .COMPLETE {}) id).map
      jobObs = _
  have h1 : JobsObs (updateJob sR job.id (fun j => { j with cost_estimate := tcF }))
      (pfBase job sR tcF) := JobsObs_record_stage _ _ _ _ _
  have h2 : JobsObs (pfBase job sR tcF)
      ((pfOutputs profile prevF).foldl (output_fold_step ap)
        (pfBase job sR tcF, ([] : List String))).1 :=
    JobsObs_of_jobs_eq (output_fold_jobs ap (pfOutputs profile prevF) (pfBase job sR tcF, []))
  have h3 : JobsObs ((pfOutputs profile prevF).foldl (output_fold_step ap)
        (pfBase job sR tcF, ([] : List String))).1
      (record_stage ((pfOutputs profile prevF).foldl (output_fold_step ap)
        (pfBase job sR tcF, ([] : List String))).1 job.id "output" .COMPLETE {}) :=
    JobsObs_record_stage _ _ _ _ _
  exact ((h1.trans h2).trans h3) id

/-- C3 (amended): `_process_with_profile` commits the accumulated stage
cost onto `Job.cost_estimate` only when the stage loop succeeds.  For a
fresh successful run — no pre-existing rows for the profile's (distinct)
stage names or for `output`, and a zero COMPLETE-row cost total to start
from — the committed value equals the sum of `cost_estimate` over the
job's COMPLETE `StageResult` rows in the final state.  When a stage
fails, the commit is skipped and the job's `cost_estimate` is left at
its previous value even though COMPLETE rows with nonzero costs exist
(see the counterexample). -/
theorem C3_cost_commit (cfg : WorldConfig) (s : EngineState) (job : Job)
    (ap : String) (td : TranscriptData) (profile : Profile) (outs : List String)
    (hget : (getJob s job.id).isSome = true)
    (hclean : ∀ st ∈ profile.stages, s.stages.find? (rowMatch job.id st.name) = none)
    (hnodup : (profile.stages.map Stage.name).Nodup)
    (hnames : "output" ∉ profile.stages.map Stage.name)
    (hout : s.stages.find? (rowMatch job.id "output") = none)
    (hzero : sumCompleteCosts s job.id = 0)
    (hok : (process_with_profile cfg s job ap td profile).2 = .ok outs) :
    (getJob (process_with_profile cfg s job ap td profile).1 job.id).map
        (fun j => j.cost_estimate) =
      some (sumCompleteCosts (process_with_profile cfg s job ap td profile).1 job.id) := by
  rcases hrs : run_stages cfg job.id profile.stages s (build_raw_transcript td.segments) [] 0
    with ⟨sR, r⟩
  rcases r with e | ⟨ciF, prevF, tcF⟩
  · simp only [process_with_profile] at hok
    rw [hrs] at hok
    dsimp only at hok
    simp at hok
  · rw [process_with_profile_ok cfg s job ap td profile sR ciF prevF tcF hrs]
    dsimp only
    have hobs0 : JobsObs s sR := by
      have h := JobsObs_run_stages cfg job.id profile.stages s
        (build_raw_transcript td.segments) [] 0
      rw [hrs] at h
      exact h
    obtain ⟨j0, hj0⟩ := Option.isSome_iff_exists.mp hget
    have hget1 : (getJob sR job.id).map jobObs = some (jobObs j0) := by
      rw [hobs0 job.id, hj0]
      rfl
    obtain ⟨j1, hj1, hjobs1⟩ := Option.map_eq_some'.mp hget1
    have hid1 : (j1.id == job.id) = true := by
      have h := getJob_id sR job.id j1 hj1
      rw [h]
      exact beq_self_eq_true job.id
    have hup : getJob (updateJob sR job.id (fun j => { j with cost_estimate := tcF }))
        job.id = some { j1 with cost_estimate := tcF } := by
      rw [getJob_updateJob sR job.id (fun j => { j with cost_estimate := tcF })
        (fun j => rfl) job.id, hj1]
      simp only [Option.map_some']
      rw [if_pos hid1]
    have hO := profile_finish_obs job ap profile sR prevF tcF job.id
    rw [hup] at hO
    obtain ⟨j5, hj5, hjobs5⟩ := Option.map_eq_some'.mp hO
    have hcost5 : j5.cost_estimate = tcF := by
      have h := congrArg (fun t => t.2.1) hjobs5
      simpa [jobObs] using h
    obtain ⟨hsumR, hframeR⟩ := run_stages_fresh_sum cfg job.id profile.stages s
      (build_raw_transcript td.segments) [] 0 sR ciF prevF tcF hclean hnodup hrs
    have houtR : sR.stages.find? (rowMatch job.id "output") = none :=
      hframeR "output" hnames hout
    have hsum5 := profile_finish_sum job ap profile sR prevF tcF houtR
    have hzero' : (s.stages.map (rowContribution job.id)).sum = 0 := by
      rw [← sumCompleteCosts_eq_sum_contributions]
      exact hzero
    have hsc : sumCompleteCosts (profile_finish job ap profile sR prevF tcF).1 job.id = tcF := by
      rw [sumCompleteCosts_eq_sum_contributions, hsum5, hsumR, hzero']
      ring
    rw [hj5, hsc]
    simp only [Option.map_some']
    rw [hcost5]

/-- Profile for C3's counterexample: two LLM stages; the first will
succeed and the second will fail. -/
def c3Profile : Profile :=
  { id := "p3",
    stages := [
      { name := "clean", prompt_template := "{transcript}", model := "deepseek-chat" },
      { name := "analyze", prompt_template := "{transcript}", model := "deepseek-chat" }] }

/-- Configuration for C3's counterexample: transcription succeeds, the
`clean` stage succeeds at a cost of $0.42, the `analyze` stage raises. -/
def c3Cfg : WorldConfig :=
  { env := fun v => v == "DEEPSEEK_API_KEY", groq := true,
    transcribe := .ok ⟨[⟨0, 2, "hi"⟩], "hi", 2⟩,
    llm := fun n _ =>
      if n == "clean" then .ok ("cleaned", 1000000, 1000000)
      else .error "LLM unavailable",
    profiles := [c3Profile] }

/-- Store for C3's counterexample. -/
def c3State : EngineState :=
  { jobs := [{ id := "j1", profile_id := "p3", filename := "inbox/a.mp3",
               status := .QUEUED }],
    stages := [], fs := [("inbox/a.mp3", .media)] }

/-- C3 counterexample: the job terminates FAILED partway through the
profile pipeline with `cost_estimate` still 0, yet its COMPLETE
`StageResult` rows (the `clean` stage) sum to $0.42 — the claimed
invariant does not hold after a failed run. -/
theorem C3_counterexample :
    (getJob (process_job c3Cfg c3State "j1") "j1").map
        (fun j => (j.status, j.cost_estimate)) = some (.FAILED, 0) ∧
    sumCompleteCosts (process_job c3Cfg c3State "j1") "j1" = mkRat 42 100 ∧
    (0 : ℚ) ≠ mkRat 42 100 := by
  refine ⟨by decide, by decide, by decide⟩

/-- Profile for C3's amended-theorem witness: two distinct LLM stages. -/
def c3wProfile : Profile :=
  { id := "p3w",
    stages := [
      { name := "clean", prompt_template := "{transcript}", model := "deepseek-chat" },
      { name := "analyze", prompt_template := "{transcript}", model := "deepseek-chat" }] }

/-- Configuration for C3's amended-theorem witness: every stage
succeeds at a cost of $0.42. -/
def c3wCfg : WorldConfig :=
  { env := fun v => v == "DEEPSEEK_API_KEY",
    llm := fun _ _ => .ok ("out", 1000000, 1000000),
    profiles := [c3wProfile] }

/-- Job for C3's amended-theorem witness. -/
def c3wJob : Job :=
  { id := "j1", profile_id := "p3w", filename := "inbox/a.mp3", status := .PROCESSING }

/-- Store for C3's amended-theorem witness. -/
def c3wState : EngineState :=
  { jobs := [c3wJob], stages := [], fs := [("inbox/a.mp3", .media)] }

/-- Transcript for C3's amended-theorem witness. -/
def c3wTd : TranscriptData := ⟨[⟨0, 2, "hi"⟩], "hi", 2⟩

/-- Witness for C3's amended theorem at a concrete input. -/
theorem C3_cost_commit_witness :
    ((getJob c3wState c3wJob.id).isSome = true) ∧
    (∀ st ∈ c3wProfile.stages,
      c3wState.stages.find? (rowMatch c3wJob.id st.name) = none) ∧
    ((c3wProfile.stages.map Stage.name).Nodup) ∧
    ("output" ∉ c3wProfile.stages.map Stage.name) ∧
    (c3wState.stages.find? (rowMatch c3wJob.id "output") = none) ∧
    (sumCompleteCosts c3wState c3wJob.id = 0) ∧
    (getJob (process_with_profile c3wCfg c3wState c3wJob "inbox/a.mp3" c3wTd
        c3wProfile).1 c3wJob.id).map (fun j => j.cost_estimate) =
      some (sumCompleteCosts (process_with_profile c3wCfg c3wState c3wJob "inbox/a.mp3"
        c3wTd c3wProfile).1 c3wJob.id) :=
  ⟨by decide, by decide, by decide, by decide, by decide, by decide,
   C3_cost_commit c3wCfg c3wState c3wJob "inbox/a.mp3" c3wTd c3wProfile []
     (by decide) (by decide) (by decide) (by decide) (by decide) (by decide) rfl⟩

end Pipeline
